import Mathlib

/-!
Shallow embedding of the boatrace bulletin parser
(`scripts/boatrace/parser.py` and the data model of
`scripts/boatrace/models.py`) together with proofs of the specified
properties of the record-extraction engine.

Modelling conventions:
* Python `str` values are Lean `String`s; positional indexing and slicing
  are by character (as in Python), implemented over `String.toList`.
* Python `float` values are modelled as exact rationals (`ℚ`); the
  bulletin fields are decimal literals, so the arithmetic performed by the
  parser (`minutes*60 + seconds + tenths/10`, truncation by `int(...)`) is
  exact and agrees with the decimal reading of the source text.
* Python exceptions that the source catches locally are modelled with
  `Option`; the broad `try/except` wrappers around whole functions have no
  reachable failure in the embedded (total) code, mirroring the fact that
  every indexing/parsing step in the source is either guarded or wrapped.
* Python digit tests (`str.isdigit`, `int(...)`, `float(...)`) accept both
  ASCII and full-width digits on this data; both ranges are modelled.
  Exotic numeric spellings (exponents, underscores, other Unicode digit
  classes) do not occur in these bulletins and are not modelled.
-/

attribute [local semireducible] Rat.add Rat.mul Rat.inv Rat.sub Rat.ofScientific

/-! ## Python string primitives -/

/-- Whitespace characters recognised by Python's `str.strip`/`str.split`
on this data: ASCII whitespace and the ideographic space U+3000. -/
def pyIsSpaceChar (c : Char) : Bool :=
  c = ' ' || c = '\t' || c = '\n' || c = '\r' || c = '\x0b' || c = '\x0c' || c = '　'

/-- Numeric value of a decimal digit: ASCII `0`-`9` or full-width `０`-`９`
(both are accepted by Python's `str.isdigit`/`int`/`float`). -/
def digitVal? (c : Char) : Option Nat :=
  if '0' ≤ c ∧ c ≤ '9' then some (c.toNat - '0'.toNat)
  else if '０' ≤ c ∧ c ≤ '９' then some (c.toNat - '０'.toNat)
  else none

/-- `True` when the character is a decimal digit (Python `ch.isdigit()`). -/
def charIsDigit (c : Char) : Bool := (digitVal? c).isSome

/-- Python `s.lstrip()`. -/
def pyLstrip (s : String) : String := String.mk (s.toList.dropWhile pyIsSpaceChar)

/-- Python `s.rstrip()`. -/
def pyRstrip (s : String) : String :=
  String.mk ((s.toList.reverse.dropWhile pyIsSpaceChar).reverse)

/-- Python `s.strip()`. -/
def pyStrip (s : String) : String := pyRstrip (pyLstrip s)

/-- Python `s.rstrip('\r')` (used on program-file lines). -/
def pyRstripCr (s : String) : String :=
  String.mk ((s.toList.reverse.dropWhile (· = '\r')).reverse)

/-- Python `s.rstrip(',')` (used when extending a place-bet value). -/
def pyRstripComma (s : String) : String :=
  String.mk ((s.toList.reverse.dropWhile (· = ',')).reverse)

/-- Helper for `pySplit`: accumulates the current token (reversed). -/
def pySplitAux (acc : List Char) : List Char → List String
  | [] => if acc.isEmpty then [] else [String.mk acc.reverse]
  | c :: t =>
    if pyIsSpaceChar c then
      if acc.isEmpty then pySplitAux [] t
      else String.mk acc.reverse :: pySplitAux [] t
    else pySplitAux (c :: acc) t

/-- Python `s.split()` — split on runs of whitespace, no empty tokens. -/
def pySplit (s : String) : List String := pySplitAux [] s.toList

/-- Helper for `pySplitOnChar`. -/
def pySplitOnCharAux (sep : Char) (acc : List Char) : List Char → List String
  | [] => [String.mk acc.reverse]
  | c :: t =>
    if c = sep then String.mk acc.reverse :: pySplitOnCharAux sep [] t
    else pySplitOnCharAux sep (c :: acc) t

/-- Python `s.split(sep)` for a single-character separator (empty pieces
are kept, as in Python). -/
def pySplitOnChar (s : String) (sep : Char) : List String :=
  pySplitOnCharAux sep [] s.toList

/-- Helper for `pyContains`: does `sub` occur in the haystack? -/
def strContainsAux (sub : List Char) : List Char → Bool
  | [] => sub.isEmpty
  | c :: t => sub.isPrefixOf (c :: t) || strContainsAux sub t

/-- Python `sub in s` (substring containment). -/
def pyContains (s sub : String) : Bool := strContainsAux sub.toList s.toList

/-- Python `s.startswith(pre)`. -/
def pyStartsWith (s pre : String) : Bool := pre.toList.isPrefixOf s.toList

/-- Helper for `pyFind`: first match position, counting from `i`. -/
def pyFindAux (sub : List Char) : List Char → Nat → Option Nat
  | [], i => if sub.isEmpty then some i else none
  | c :: t, i => if sub.isPrefixOf (c :: t) then some i else pyFindAux sub t (i + 1)

/-- Python `s.find(sub)`, as `Option Nat` (`none` for Python's `-1`). -/
def pyFind (s sub : String) : Option Nat := pyFindAux sub.toList s.toList 0

/-- Python `s.find(sub, start)`. -/
def pyFindFrom (s sub : String) (start : Nat) : Option Nat :=
  pyFindAux sub.toList (s.toList.drop start) start

/-- Helper for `pyRFind`: last match position. -/
def pyRFindAux (sub : List Char) : List Char → Nat → Option Nat → Option Nat
  | [], i, best => if sub.isEmpty then some i else best
  | c :: t, i, best =>
    pyRFindAux sub t (i + 1) (if sub.isPrefixOf (c :: t) then some i else best)

/-- Python `s.rfind(sub)`, as `Option Nat`. -/
def pyRFind (s sub : String) : Option Nat := pyRFindAux sub.toList s.toList 0 none

/-- Python `s[a:b]` (character positions, clamped like Python slices of
non-negative indices). -/
def pySlice (s : String) (a b : Nat) : String :=
  String.mk ((s.toList.drop a).take (b - a))

/-- Python `s[a:]`. -/
def pySliceFrom (s : String) (a : Nat) : String := String.mk (s.toList.drop a)

/-- Python `s[i]` on an index the source has already bounds-checked. -/
def pyCharAt (s : String) (i : Nat) : Char := s.toList.getD i '\x00'

/-- Helper for `pyReplace`; the fuel is the haystack length, and each
match consumes at least one character, so the fuel never runs out. -/
def pyReplaceAux (old new : List Char) : Nat → List Char → List Char
  | _, [] => []
  | 0, hay => hay
  | fuel + 1, c :: t =>
    if old.isPrefixOf (c :: t) then new ++ pyReplaceAux old new fuel ((c :: t).drop old.length)
    else c :: pyReplaceAux old new fuel t

/-- Python `s.replace(old, new)` for non-empty `old` (every use in the
source has a non-empty pattern; an empty pattern is returned unchanged). -/
def pyReplace (s old new : String) : String :=
  if old.toList.isEmpty then s
  else String.mk (pyReplaceAux old.toList new.toList s.toList.length s.toList)

/-- Value of a non-empty all-digit character list. -/
def natOfDigits? (l : List Char) : Option Nat :=
  if l.isEmpty then none
  else l.foldl (fun acc c =>
    match acc, digitVal? c with
    | some a, some d => some (a * 10 + d)
    | _, _ => none) (some 0)

/-- Python `int(s)`: optional sign followed by decimal digits. -/
def pyInt (s : String) : Option Int :=
  match s.toList with
  | '-' :: t => (natOfDigits? t).map (fun n => -(n : Int))
  | '+' :: t => (natOfDigits? t).map (fun n => (n : Int))
  | l => (natOfDigits? l).map (fun n => (n : Int))

/-- Python `s.isdigit()`: non-empty and all digits. -/
def pyIsdigit (s : String) : Bool :=
  !s.toList.isEmpty && s.toList.all charIsDigit

/-- Value of the digits seen so far combined with a fraction part:
`intDigits . fracDigits` as an exact rational. -/
def decimalVal (intDigits fracDigits : List Char) : ℚ :=
  ((natOfDigits? intDigits).getD 0 : ℚ) +
    mkRat ((natOfDigits? fracDigits).getD 0 : Int) (10 ^ fracDigits.length)

/-- Python `float(s)` on the decimal spellings that occur in bulletins:
optional sign, then digits with at most one point and at least one digit
(`"1."`, `".5"` are valid; `"."`, `""`, `"1.2.3"` are not). -/
def pyFloat (s : String) : Option ℚ :=
  let core : List Char → Option ℚ := fun l =>
    let intPart := l.takeWhile charIsDigit
    let rest := l.drop intPart.length
    match rest with
    | [] => if intPart.isEmpty then none else some (decimalVal intPart [])
    | '.' :: frac =>
      if frac.all charIsDigit ∧ ¬(intPart.isEmpty ∧ frac.isEmpty) then
        some (decimalVal intPart frac)
      else none
    | _ => none
  match s.toList with
  | '-' :: t => (core t).map (fun q => -q)
  | '+' :: t => core t
  | l => core l

/-- Python `int(q)` on a float value: truncation toward zero. -/
def pyTrunc (q : ℚ) : Int := if 0 ≤ q then ⌊q⌋ else ⌈q⌉

/-- Python `str.zfill(2)` on the digit strings the parser builds. -/
def zfill2 (s : String) : String :=
  if s.toList.length < 2 then
    String.mk (List.replicate (2 - s.toList.length) '0') ++ s
  else s

/-- Python `" ".join(parts)`. -/
def joinSpace : List String → String
  | [] => ""
  | [x] => x
  | x :: xs => x ++ " " ++ joinSpace xs

/-- Occurrences of a character in a string (Python `s.count(ch)`). -/
def countChar (s : String) (c : Char) : Nat := s.toList.count c

/-- Index of first position `≥ i` whose character fails `p`, i.e. the
Python idiom `while i < len(s) and p(s[i]): i += 1`. -/
def skipWhileIdx (cs : List Char) (p : Char → Bool) (i : Nat) : Nat :=
  i + ((cs.drop i).takeWhile p).length

/-- The Python backwards scan `while j >= 0 and p(line[j]): j -= 1`,
phrased on `k = j + 1` so the result is the final `j + 1`. -/
def backWhile (cs : List Char) (p : Char → Bool) : Nat → Nat
  | 0 => 0
  | k + 1 => if p (cs.getD k '\x00') then backWhile cs p k else k + 1

/-! ## Data model (`scripts/boatrace/models.py`) -/

/-- `models.RacerResult`: one entrant's row of a K-file race. -/
structure RacerResult where
  number : Int
  name : String
  weight : Option ℚ := none
  result : Int
  time : Option ℚ := none
  difference : Option ℚ := none
  disqualified : Bool := false
  registration_number : Option String := none
  motor_number : Option String := none
  boat_number : Option String := none
  showcase_time : Option ℚ := none
  entrance_course : Option Int := none
  start_timing : Option ℚ := none
deriving DecidableEq, Repr

/-- `models.RaceResult`: a decoded K-file race. -/
structure RaceResult where
  date : String
  stadium : String
  race_round : String
  title : String
  race_code : Option String := none
  race_name : Option String := none
  distance : Option String := none
  day_of_session : Option String := none
  weather : Option String := none
  wind_direction : Option String := none
  wind_speed : Option String := none
  wave_height : Option String := none
  winning_technique : Option String := none
  tansho : Option String := none
  fukusho : Option String := none
  wakren : Option String := none
  fuku2 : Option String := none
  santan : Option String := none
  sanfuku : Option String := none
  santan_yosoku : Option String := none
  sanfuku_yosoku : Option String := none
  rentan : Option String := none
  renfuku : Option String := none
  rentan_yosoku : Option String := none
  renfuku_yosoku : Option String := none
  wide : Option String := none
  wide_yosoku : Option String := none
  trio : Option String := none
  trio_yosoku : Option String := none
  tiomate : Option String := none
  racers : List RacerResult := []
deriving DecidableEq, Repr

/-- `models.RaceResult.is_valid`. -/
def RaceResult.is_valid (r : RaceResult) : Bool :=
  r.racers.length = 6 &&
  r.racers.all (fun rc => 1 ≤ rc.result && rc.result ≤ 6) &&
  (r.racers.map (·.result)).dedup.length = 6

/-- `models.RacerFrame`: one entrant's row of a B-file program.  Fields
that `parse_racer_frame_line` always fills with a string are `String`;
the grades/rates it always fills with a number are `ℚ`/`Int`. -/
structure RacerFrame where
  entry_number : Int
  registration_number : String
  racer_name : String
  age : Int
  win_rate : ℚ
  place_rate : ℚ
  average_score : ℚ
  motor_number : String
  motor_wins : Int
  motor_2nd : Int
  boat_number : String
  boat_wins : Int
  boat_2nd : Int
  weight : ℚ
  adjustment : ℚ
  prefecture : String
  classGrade : String
  local_win_rate : ℚ
  local_place_rate : ℚ
  motor_2nd_rate : ℚ
  boat_2nd_rate : ℚ
  results_day1_race1 : String
  results_day1_race2 : String
  results_day2_race1 : String
  results_day2_race2 : String
  results_day3_race1 : String
  results_day3_race2 : String
  results_day4_race1 : String
  results_day4_race2 : String
  results_day5_race1 : String
  results_day5_race2 : String
  results_day6_race1 : String
  results_day6_race2 : String
  hayami : String
deriving DecidableEq, Repr

/-- `models.RaceProgram`: a decoded B-file race programme (the fields the
program parser constructs). -/
structure RaceProgram where
  date : String
  stadium : String
  race_round : String
  title : String
  day_of_session : String
  race_name : String
  distance : String
  post_time : String
  racer_frames : List RacerFrame := []
deriving DecidableEq, Repr

/-! ## `parse_racer_result_line` (parser.py lines 240-390) -/

/-- Race-time token decoding inside `parse_racer_result_line`
(parser.py lines 349-370): a token with exactly two points is read as
`M.SS.T` and converted to seconds; otherwise `float(...)` applies.  The
guard models `if race_str and race_str != "."`; parse failures inside the
`try` blocks leave the time unset (`none`). -/
def decodeRaceTime (s : String) : Option ℚ :=
  if s = "" ∨ s = "." then none
  else if countChar s '.' = 2 then
    let tp := pySplitOnChar s '.'
    if tp.length = 3 then
      match pyInt (tp.getD 0 ""), pyInt (tp.getD 1 ""), pyInt (tp.getD 2 "") with
      | some m, some se, some c => some ((m : ℚ) * 60 + (se : ℚ) + (c : ℚ) / 10)
      | _, _, _ => pyFloat s
    else pyFloat s
  else pyFloat s

/-- `parse_racer_result_line` (parser.py lines 240-390).  Splits the line
on whitespace, reads position/boat/registration, consumes name tokens
until the first numeric token, then assigns the trailing numeric columns
positionally.  Returns `none` exactly where the source returns `None`. -/
def parse_racer_result_line (line : String) : Option RacerResult :=
  let parts := pySplit line
  if parts.length < 10 then none
  else
    match pyInt (parts.getD 0 "") with
    | none => none
    | some result =>
      match pyInt (parts.getD 1 "") with
      | none => none
      | some racer_num =>
        let registration_number := parts.getD 2 ""
        let name_end := (((parts.drop 3).findIdx?
          (fun p => (pyFloat p).isSome)).map (· + 3)).getD 3
        let name_parts := (parts.drop 3).takeWhile (fun p => (pyFloat p).isNone)
        let name := joinSpace name_parts
        let motor_number := if name_end < parts.length then parts.getD name_end "" else ""
        let boat_number :=
          if name_end + 1 < parts.length then parts.getD (name_end + 1) "" else ""
        let showcase_time :=
          if name_end + 2 < parts.length then
            let s := parts.getD (name_end + 2) ""
            if s ≠ "" ∧ s ≠ "." then pyFloat s else none
          else none
        let entrance_course :=
          if name_end + 3 < parts.length then
            let s := parts.getD (name_end + 3) ""
            if s ≠ "" ∧ pyIsdigit s then pyInt s else none
          else none
        let start_timing :=
          if name_end + 4 < parts.length then
            let s := parts.getD (name_end + 4) ""
            if s ≠ "" ∧ s ≠ "." then pyFloat s else none
          else none
        let race_time :=
          if name_end + 5 < parts.length then decodeRaceTime (parts.getD (name_end + 5) "")
          else none
        if 1 ≤ racer_num ∧ racer_num ≤ 6 ∧ 1 ≤ result ∧ result ≤ 6 then
          some
            { number := racer_num
              name := name
              weight := none
              result := result
              time := race_time
              registration_number :=
                if registration_number ≠ "" then some registration_number else none
              motor_number := if motor_number ≠ "" then some motor_number else none
              boat_number := if boat_number ≠ "" then some boat_number else none
              showcase_time := showcase_time
              entrance_course := entrance_course
              start_timing := start_timing }
        else none

/-! ## Header pre-scan (parser.py lines 66-94) -/

/-- The header-shape test of the pre-scan (parser.py lines 68-87): a
leading one- or two-digit round number (1-12, resp. 1-9) immediately
followed by `R`, whose next non-space character exists and is not a
digit. -/
def isPotentialRaceHeader (line : String) : Bool :=
  let cs := (pyLstrip line).toList
  if cs.isEmpty then false
  else if 3 ≤ cs.length && pyIsdigit (String.mk (cs.take 2)) && cs.getD 2 '\x00' = 'R' then
    let race_num := (natOfDigits? (cs.take 2)).getD 0
    if 1 ≤ race_num && race_num ≤ 12 then
      let after_r := (cs.drop 3).dropWhile pyIsSpaceChar
      !after_r.isEmpty && !charIsDigit (after_r.getD 0 '\x00')
    else false
  else if 2 ≤ cs.length && charIsDigit (cs.getD 0 '\x00') && cs.getD 1 '\x00' = 'R' then
    let race_num := (digitVal? (cs.getD 0 '\x00')).getD 0
    if 1 ≤ race_num && race_num ≤ 9 then
      let after_r := (cs.drop 2).dropWhile pyIsSpaceChar
      !after_r.isEmpty && !charIsDigit (after_r.getD 0 '\x00')
    else false
  else false

/-- The column-title marker `着 艇 登番` (half- or full-width spaces) that
confirms a result-file race header. -/
def lineHasMarker (l : String) : Bool :=
  pyContains l "着 艇 登番" || pyContains l "着　艇　登番"

/-- The pre-scan of `parse_result_file` (parser.py lines 66-94): indices
of lines that match the header shape and are followed within the next
three lines by the column-title marker. -/
def validRaceHeaders (lines : List String) : List Nat :=
  (List.range lines.length).filter (fun i =>
    isPotentialRaceHeader (lines.getD i "") &&
      (List.range' (i + 1) (min (i + 4) lines.length - (i + 1))).any
        (fun j => lineHasMarker (lines.getD j "")))

/-! ## `_extract_race_details` (parser.py lines 1047-1153) -/

/-- Race-name extraction step of `_extract_race_details` (lines 1061-1074). -/
def updRaceName (race : RaceResult) (line : String) : RaceResult :=
  match pyFind line "H" with
  | none => race
  | some h_index =>
    if h_index > 0 then
      match pyFind line "R" with
      | none => race
      | some r_index =>
        let start_index := skipWhileIdx line.toList (fun c => c = ' ' || c = '　') (r_index + 1)
        let race_name_str := pyStrip (pyReplace (pySlice line start_index h_index) "　" "")
        if race_name_str ≠ "" then { race with race_name := some race_name_str } else race
    else race

/-- Distance extraction step of `_extract_race_details` (lines 1076-1090). -/
def updDistance (race : RaceResult) (line : String) : RaceResult :=
  match pyFind line "H" with
  | none => race
  | some h_index =>
    let distance_end := skipWhileIdx line.toList
      (fun c => !(c = ' ' || c = '　')) (h_index + 1)
    let distance_str := pyStrip (pySlice line h_index distance_end)
    if distance_str ≠ "" && pyContains distance_str "m" then
      let distance_num := pyStrip (pyReplace (pyReplace distance_str "H" "") "m" "")
      if distance_num ≠ "" then { race with distance := some distance_num } else race
    else race

/-- Weather extraction step of `_extract_race_details` (lines 1092-1098). -/
def updWeather (race : RaceResult) (line : String) : RaceResult :=
  match (["曇り", "晴", "雨", "曇"].find? (fun w => pyContains line w)) with
  | some w => { race with weather := some w }
  | none => race

/-- Wind-direction extraction step of `_extract_race_details` (lines 1100-1106). -/
def updWindDirection (race : RaceResult) (line : String) : RaceResult :=
  match (["北西", "北東", "南西", "南東", "北", "南", "東", "西"].find?
      (fun w => pyContains line w)) with
  | some w => { race with wind_direction := some w }
  | none => race

/-- The backwards extraction at a candidate `m` position inside the
wind-speed scan: skip spaces, then collect digits and points. -/
def windCandidate (cs : List Char) (i : Nat) : String :=
  let k1 := backWhile cs (fun c => c = ' ' || c = '　') i
  let k2 := backWhile cs (fun c => charIsDigit c || c = '.') k1
  pyStrip (String.mk ((cs.drop k2).take (k1 - k2)))

/-- The forward scan for a wind-speed `m` marker (lines 1110-1124); fuel
is the number of remaining positions. -/
def windScanAux (cs : List Char) : Nat → Nat → Option String
  | 0, _ => none
  | fuel + 1, i =>
    if i < cs.length then
      if cs.getD i '\x00' = 'm' && i > 0 then
        let w := windCandidate cs i
        if w ≠ "" && !(["800", "1800", "1200", "1600"].contains w) then some w
        else windScanAux cs fuel (i + 1)
      else windScanAux cs fuel (i + 1)
    else none

/-- Wind-speed extraction step of `_extract_race_details` (lines 1108-1124). -/
def updWindSpeed (race : RaceResult) (line : String) : RaceResult :=
  let search_start := match pyFind line "H" with
    | some h => h + 1
    | none => 0
  match windScanAux line.toList line.toList.length search_start with
  | some w => { race with wind_speed := some w }
  | none => race

/-- Wave-height extraction step of `_extract_race_details` (lines 1126-1139). -/
def updWaveHeight (race : RaceResult) (line : String) : RaceResult :=
  match pyFind line "cm" with
  | none => race
  | some cm_index =>
    if cm_index > 0 then
      let w := windCandidate line.toList cm_index
      if w ≠ "" then { race with wave_height := some w } else race
    else race

/-- Winning-technique extraction step of `_extract_race_details`
(lines 1141-1149), which looks at the following raw line. -/
def updWinningTechnique (race : RaceResult) (all_lines : List String)
    (line_index : Nat) : RaceResult :=
  if line_index + 1 < all_lines.length then
    let next_line := all_lines.getD (line_index + 1) ""
    match (["逃げ", "差し", "まくり", "まくり差し"].find?
        (fun t => pyContains next_line t)) with
    | some t => { race with winning_technique := some t }
    | none => race
  else race

/-- `_extract_race_details` (parser.py lines 1047-1153): sequential
best-effort extraction of race name, distance, weather, wind, wave height
and winning technique.  (The `進入固定` replacement on line 1059 replaces
the text with itself and is a no-op.) -/
def extractRaceDetails (race : RaceResult) (line : String) (all_lines : List String)
    (line_index : Nat) : RaceResult :=
  updWinningTechnique
    (updWaveHeight
      (updWindSpeed
        (updWindDirection
          (updWeather
            (updDistance (updRaceName race line) line) line) line) line) line)
    all_lines line_index

/-! ## `_extract_betting_results` (parser.py lines 860-1044) -/

/-- The betting keywords tested by `has_bet_keyword` (lines 886-889):
the category keywords plus the race-invalidation marker. -/
def betKeywords : List String :=
  ["単勝", "複勝", "２連単", "2連単", "２連複", "2連複",
   "拡連複", "３連単", "3連単", "３連複", "3連複", "不成立"]

/-- The category keywords proper (every `betKeywords` entry except the
invalidation marker `不成立`). -/
def betCategoryKeywords : List String :=
  ["単勝", "複勝", "２連単", "2連単", "２連複", "2連複",
   "拡連複", "３連単", "3連単", "３連複", "3連複"]

/-- State of the betting-extraction loop: the race being updated, the
`in_betting_section` flag and the `last_bet_type` tracker. -/
structure BetState where
  race : RaceResult
  inBetting : Bool := false
  lastBet : String := ""
deriving DecidableEq, Repr

/-- Popularity extraction inside the exacta/quinella branches
(lines 946-952): the token following a literal `人気` token. -/
def popularityAfterKeyword (parts : List String) : String :=
  match parts.findIdx? (fun p => p = "人気") with
  | some j => if j + 1 < parts.length then pyStrip (parts.getD (j + 1) "") else ""
  | none => ""

/-- The new value of `race.fukusho` when a continuation line appends a
boat/payout pair (lines 1036-1041). -/
def fukushoAppend (old : Option String) (boat_num payout : String) : String :=
  match old with
  | some f =>
    if f ≠ "" then pyRstripComma f ++ "," ++ boat_num ++ "," ++ payout
    else boat_num ++ "," ++ payout
  | none => boat_num ++ "," ++ payout

/-- The `単勝` (win) branch of the betting loop (lines 892-907). -/
def betTansho (race : RaceResult) (line : String) : RaceResult :=
  let parts := pySplit line
  if parts.length ≥ 3 then
    let boat_num := pyStrip (parts.getD 1 "")
    let payout := pyStrip (parts.getD 2 "")
    if boat_num ≠ "" && payout ≠ "" then
      { race with tansho := some (boat_num ++ "," ++ payout) }
    else race
  else if parts.length ≥ 2 then
    let boat_num := pyStrip (parts.getD 1 "")
    if boat_num ≠ "" then { race with tansho := some (boat_num ++ ",") }
    else race
  else race

/-- The `複勝` (place) branch of the betting loop (lines 909-935). -/
def betFukusho (race : RaceResult) (line : String) : RaceResult :=
  if pyContains line "複勝" && pyStartsWith (pyStrip line) "複" then
    let parts := pySplit line
    if parts.length ≥ 5 then
      let boat1 := pyStrip (parts.getD 1 "")
      let payout1 := pyStrip (parts.getD 2 "")
      let boat2 := pyStrip (parts.getD 3 "")
      let payout2 := pyStrip (parts.getD 4 "")
      let v := boat1 ++ "," ++ payout1 ++ "," ++ boat2 ++ "," ++ payout2
      if boat1 ≠ "" && payout1 ≠ "" then { race with fukusho := some v }
      else race
    else if parts.length ≥ 3 then
      let boat_num := pyStrip (parts.getD 1 "")
      let payout := pyStrip (parts.getD 2 "")
      if boat_num ≠ "" && payout ≠ "" then
        { race with fukusho := some (boat_num ++ "," ++ payout ++ ",") }
      else race
    else if parts.length ≥ 2 then
      let boat_num := pyStrip (parts.getD 1 "")
      if boat_num ≠ "" then { race with fukusho := some (boat_num ++ ",") }
      else race
    else race
  else race

/-- The `２連単` (exacta) branch of the betting loop (lines 937-958). -/
def betSantan (race : RaceResult) (line : String) : RaceResult :=
  let parts := pySplit line
  if parts.length ≥ 3 then
    let combo := pyStrip (parts.getD 1 "")
    let payout := pyStrip (parts.getD 2 "")
    let popularity := if pyContains line "人気" then popularityAfterKeyword parts else ""
    if combo ≠ "" && payout ≠ "" then
      { race with santan := some (combo ++ "," ++ payout ++ "," ++ popularity) }
    else race
  else if parts.length ≥ 2 then
    let combo := pyStrip (parts.getD 1 "")
    if combo ≠ "" then { race with santan := some (combo ++ ",,") }
    else race
  else race

/-- The `２連複` (quinella) branch of the betting loop (lines 960-981). -/
def betRenfuku (race : RaceResult) (line : String) : RaceResult :=
  let parts := pySplit line
  if parts.length ≥ 3 then
    let combo := pyStrip (parts.getD 1 "")
    let payout := pyStrip (parts.getD 2 "")
    let popularity := if pyContains line "人気" then popularityAfterKeyword parts else ""
    if combo ≠ "" && payout ≠ "" then
      { race with renfuku := some (combo ++ "," ++ payout ++ "," ++ popularity) }
    else race
  else if parts.length ≥ 2 then
    let combo := pyStrip (parts.getD 1 "")
    if combo ≠ "" then { race with renfuku := some (combo ++ ",,") }
    else race
  else race

/-- The `拡連複` (wide) branch with its fixed column slices over three
lines (lines 983-1003). -/
def betWide (race : RaceResult) (l1 l2raw l3raw : String) (haveTwo : Bool) : RaceResult :=
  if haveTwo then
    let l2 := pyRstrip l2raw
    let l3 := pyRstrip l3raw
    let c1 := if 14 < l1.toList.length then pyStrip (pySlice l1 14 17) else ""
    let p1 := if 21 < l1.toList.length then pyStrip (pySlice l1 21 28) else ""
    let pop1 := if 36 < l1.toList.length then pyStrip (pySlice l1 36 38) else ""
    let c2 := if 17 < l2.toList.length then pyStrip (pySlice l2 17 20) else ""
    let p2 := if 24 < l2.toList.length then pyStrip (pySlice l2 24 31) else ""
    let pop2 := if 39 < l2.toList.length then pyStrip (pySlice l2 39 41) else ""
    let c3 := if 17 < l3.toList.length then pyStrip (pySlice l3 17 20) else ""
    let p3 := if 24 < l3.toList.length then pyStrip (pySlice l3 24 31) else ""
    let pop3 := if 39 < l3.toList.length then pyStrip (pySlice l3 39 41) else ""
    let v := c1 ++ "," ++ p1 ++ "," ++ pop1 ++ "," ++ c2 ++ "," ++ p2 ++ "," ++ pop2 ++
      "," ++ c3 ++ "," ++ p3 ++ "," ++ pop3
    { race with wide := some v }
  else race

/-- The `３連単` (trifecta) branch, fixed column slices (lines 1005-1012). -/
def betSantanYosoku (race : RaceResult) (line : String) : RaceResult :=
  let combo := if 14 < line.toList.length then pyStrip (pySlice line 14 19) else ""
  let payout := if 21 < line.toList.length then pyStrip (pySlice line 21 28) else ""
  let popularity := if 35 < line.toList.length then pyStrip (pySlice line 35 38) else ""
  if combo ≠ "" && payout ≠ "" then
    { race with santan_yosoku := some (combo ++ "," ++ payout ++ "," ++ popularity) }
  else race

/-- The `３連複` (trio) branch, fixed column slices (lines 1014-1021). -/
def betTrio (race : RaceResult) (line : String) : RaceResult :=
  let combo := if 14 < line.toList.length then pyStrip (pySlice line 14 19) else ""
  let payout := if 21 < line.toList.length then pyStrip (pySlice line 21 28) else ""
  let popularity := if 35 < line.toList.length then pyStrip (pySlice line 35 38) else ""
  if combo ≠ "" && payout ≠ "" then
    { race with trio := some (combo ++ "," ++ payout ++ "," ++ popularity) }
  else race

/-- The continuation branch for lines without a betting keyword inside
the betting section (lines 1028-1041). -/
def betContinuation (s : BetState) (line : String) : BetState :=
  let parts := pySplit line
  if parts.length ≥ 2 && pyIsdigit (parts.getD 0 "") then
    let boat_num := parts.getD 0 ""
    let payout := parts.getD 1 ""
    if s.lastBet = "fukusho" then
      { s with race :=
        { s.race with fukusho := some (fukushoAppend s.race.fukusho boat_num payout) } }
    else s
  else s

/-- One iteration of the `_extract_betting_results` loop (lines 874-1041)
on the rstripped current line; `l2raw`/`l3raw` are the two following raw
lines and `haveTwo` is Python's `i + 2 < len(lines)`.  `none` models the
loop's `break`. -/
def bettingStep (l1raw l2raw l3raw : String) (haveTwo : Bool) (s : BetState) :
    Option BetState :=
  let line := pyRstrip l1raw
  if line = "" then
    if s.inBetting then none else some s
  else
    let has_bet_keyword := betKeywords.any (fun k => pyContains line k)
    if pyContains line "単勝" then
      some { s with race := betTansho s.race line, inBetting := true }
    else if pyContains line "複勝" then
      some { s with race := betFukusho s.race line, inBetting := true, lastBet := "fukusho" }
    else if pyContains line "２連単" || pyContains line "2連単" then
      some { s with race := betSantan s.race line, inBetting := true, lastBet := "santan" }
    else if pyContains line "２連複" || pyContains line "2連複" then
      some { s with race := betRenfuku s.race line, inBetting := true, lastBet := "renfuku" }
    else if pyContains line "拡連複" then
      some { s with race := betWide s.race line l2raw l3raw haveTwo, inBetting := true }
    else if pyContains line "３連単" || pyContains line "3連単" then
      some { s with race := betSantanYosoku s.race line, inBetting := true }
    else if pyContains line "３連複" || pyContains line "3連複" then
      some { s with race := betTrio s.race line, inBetting := true }
    else if pyContains line "不成立" then none
    else if s.inBetting && !has_bet_keyword then
      some (betContinuation s line)
    else some s

/-- The `_extract_betting_results` loop over the remaining lines; the
next two raw lines feed the fixed-column `拡連複` branch. -/
def bettingLoop (s : BetState) : List String → RaceResult
  | [] => s.race
  | l :: rest =>
    let haveTwo := match rest with
      | _ :: _ :: _ => true
      | _ => false
    match bettingStep l (rest.getD 0 "") (rest.getD 1 "") haveTwo s with
    | none => s.race
    | some s' => bettingLoop s' rest

/-- `_extract_betting_results` (parser.py lines 860-1044), as the race
value after the scan.  The caller's `start_line_index` is non-negative on
every reachable call (it is `last_racer_line_index - 1` and a racer has
been appended whenever the extraction runs; the unreachable negative case
is clamped to 0 here). -/
def extract_betting_results (race : RaceResult) (lines : List String)
    (start_line_index : Nat) : RaceResult :=
  bettingLoop { race := race } (lines.drop start_line_index)

/-! ## `parse_result_file` (parser.py lines 35-237) -/

/-- The stadium-name to code table (parser.py lines 15-22). -/
def STADIUM_CODE_MAP : List (String × String) :=
  [("桐生", "01"), ("戸田", "02"), ("江戸川", "03"), ("平和島", "04"),
   ("多摩川", "05"), ("浜名湖", "06"), ("蒲郡", "07"), ("常滑", "08"),
   ("津", "09"), ("三国", "10"), ("びわこ", "11"), ("住之江", "12"),
   ("尼崎", "13"), ("鳴門", "14"), ("丸亀", "15"), ("児島", "16"),
   ("宮島", "17"), ("徳山", "18"), ("下関", "19"), ("若松", "20"),
   ("芦屋", "21"), ("福岡", "22"), ("唐津", "23"), ("大村", "24")]

/-- Python `STADIUM_CODE_MAP.get(name, "24")`. -/
def stadiumCode (name : String) : String :=
  ((STADIUM_CODE_MAP.find? (fun p => p.1 = name)).map (·.2)).getD "24"

/-- Mutable state of the `parse_result_file` scan loop. -/
structure KState where
  headerTitle : String := ""
  headerDate : String := ""
  headerStadium : String := ""
  headerDayOfSession : String := ""
  current : Option RaceResult := none
  raceCount : Nat := 0
  inDetail : Bool := false
  lastRacerIdx : Nat := 0
  races : List RaceResult := []
deriving DecidableEq, Repr

/-- The `競走成績` header-information update (parser.py lines 111-139);
`i` is the 0-based index of the current line, Python's `line_num - 1`. -/
def kHeaderInfoUpdate (lines : List String) (i : Nat) (st : KState) : KState :=
  let st1 :=
    if i + 2 < lines.length then
      { st with headerTitle := pyStrip (lines.getD (i + 2) "") }
    else st
  if i + 4 < lines.length then
    let header_line := lines.getD (i + 4) ""
    let st2 :=
      if pyContains header_line "第" && pyContains header_line "日" then
        match pyFind header_line "第" with
        | none => st1
        | some start_idx =>
          match pyFindFrom header_line "日" start_idx with
          | none => st1
          | some end_idx =>
            let raw := pySlice header_line start_idx (end_idx + 1)
            { st1 with headerDayOfSession := pyReplace (pyReplace raw " " "") "　" "" }
      else st1
    { st2 with
      headerDate := pyReplace (pySlice header_line 17 27) " " "0"
      headerStadium := pyReplace (pySlice header_line 62 65) "　" "" }
  else st1

/-- The new-race branch of the scan loop (parser.py lines 142-194):
finalize the previous race (betting extraction, then append) and start a
new one from the confirmed header line. -/
def kNewRace (lines : List String) (date : String) (st : KState) (i : Nat)
    (line : String) : KState :=
  let races' :=
    match st.current with
    | some r =>
      if r.racers.length > 0 then
        st.races ++ [extract_betting_results r lines (st.lastRacerIdx - 1)]
      else st.races
    | none => st.races
  let stripped := pyLstrip line
  let cs := stripped.toList
  let race_num_str :=
    if 3 ≤ cs.length && pyIsdigit (String.mk (cs.take 2)) && cs.getD 2 '\x00' = 'R' then
      String.mk (cs.take 2)
    else if 2 ≤ cs.length && charIsDigit (cs.getD 0 '\x00') && cs.getD 1 '\x00' = 'R' then
      String.mk (cs.take 1)
    else ""
  let title_offset :=
    if 3 ≤ cs.length && pyIsdigit (String.mk (cs.take 2)) && cs.getD 2 '\x00' = 'R' then 3
    else if 2 ≤ cs.length && charIsDigit (cs.getD 0 '\x00') && cs.getD 1 '\x00' = 'R' then 2
    else 0
  let title_str :=
    if cs.length > title_offset then pyStrip (pySliceFrom stripped title_offset) else ""
  let stadium_code := stadiumCode st.headerStadium
  let date_clean := pyReplace (pyReplace st.headerDate "-" "") "/" ""
  let race_code := date_clean ++ stadium_code ++ zfill2 race_num_str
  let newRace : RaceResult :=
    { date := if st.headerDate ≠ "" then st.headerDate else date
      stadium := if st.headerStadium ≠ "" then st.headerStadium else "大村"
      race_round := zfill2 race_num_str ++ "R"
      title := if st.headerTitle ≠ "" then st.headerTitle else title_str
      race_code := some race_code
      day_of_session :=
        if st.headerDayOfSession ≠ "" then some st.headerDayOfSession else none }
  let newRace' :=
    if pyContains stripped "H" then extractRaceDetails newRace stripped lines i
    else newRace
  { st with
    races := races'
    current := some newRace'
    raceCount := st.raceCount + 1
    inDetail := false }

/-- The racer-line branch of the scan loop (parser.py lines 209-215). -/
def kTryRacer (st : KState) (r : RaceResult) (line : String) (i : Nat) : KState :=
  if (pyStrip line).toList.length > 10 &&
      !pyStartsWith line (String.mk (List.replicate 20 ' ')) then
    match parse_racer_result_line line with
    | some racer =>
      if r.racers.length < 6 then
        { st with
          current := some { r with racers := r.racers ++ [racer] }
          lastRacerIdx := i + 1 }
      else st
    | none => st
  else st

/-- One iteration of the `parse_result_file` scan loop (parser.py lines
102-215) at 0-based line index `i`. -/
def kStep (lines : List String) (vh : List Nat) (date : String) (st : KState)
    (i : Nat) (rawLine : String) : KState :=
  let line := pyRstrip rawLine
  if line = "" then st
  else
    let st1 := if pyContains line "競走成績" then kHeaderInfoUpdate lines i st else st
    if vh.contains i then kNewRace lines date st1 i line
    else if lineHasMarker line then { st1 with inDetail := true }
    else
      match st1.current with
      | some r =>
        if st1.inDetail && pyContains line "R" && pyContains line "H" then
          { st1 with current := some (extractRaceDetails r line lines i) }
        else if st1.inDetail then kTryRacer st1 r line i
        else st1
      | none => st1

/-- The trailing finalization of `parse_result_file` (lines 217-221). -/
def kFinish (lines : List String) (st : KState) : List RaceResult :=
  match st.current with
  | some r =>
    if r.racers.length > 0 then
      st.races ++ [extract_betting_results r lines (st.lastRacerIdx - 1)]
    else st.races
  | none => st.races

/-- `parse_result_file` (parser.py lines 35-237): strip the content,
split into lines, pre-scan for confirmed race headers, run the scan loop
and finalize the last race.  The top-level `try/except` returns the races
collected so far; in this total embedding no step can fault. -/
def parse_result_file (content : String) (date : String) : List RaceResult :=
  let lines := pySplitOnChar (pyStrip content) '\n'
  if lines.isEmpty then []
  else
    let vh := validRaceHeaders lines
    kFinish lines (lines.enum.foldl (fun st p => kStep lines vh date st p.1 p.2) {})

/-! ## Glyph normalizer (parser.py line 421) -/

/-- Domain of the translation table
`str.maketrans('１２３４５６７８９０Ｒ：　', '1234567890R: ')`. -/
def transDomain : List Char :=
  ['１', '２', '３', '４', '５', '６', '７', '８', '９', '０', 'Ｒ', '：', '　']

/-- Image characters of the translation table. -/
def transImage : List Char :=
  ['1', '2', '3', '4', '5', '6', '7', '8', '9', '0', 'R', ':', ' ']

/-- The fixed full-width-to-ASCII character translation `trans_asc`
(parser.py line 421); characters outside the table pass through. -/
def transAsc (c : Char) : Char :=
  if c = '１' then '1'
  else if c = '２' then '2'
  else if c = '３' then '3'
  else if c = '４' then '4'
  else if c = '５' then '5'
  else if c = '６' then '6'
  else if c = '７' then '7'
  else if c = '８' then '8'
  else if c = '９' then '9'
  else if c = '０' then '0'
  else if c = 'Ｒ' then 'R'
  else if c = '：' then ':'
  else if c = '　' then ' '
  else c

/-- Python `s.translate(trans_asc)`. -/
def pyTranslate (s : String) : String := String.mk (s.toList.map transAsc)

/-! ## `parse_racer_frame_line` (parser.py lines 594-857) -/

/-- The name-end scan of `parse_racer_frame_line` (lines 636-643): first
index of two consecutive digits followed by a CJK-range character
(`ord >= 0x4E00`); 0 when no such position exists. -/
def nameEndScan (rest : List Char) : Nat :=
  (((List.range rest.length).find? (fun i =>
      i + 1 < rest.length && charIsDigit (rest.getD i '\x00') &&
      charIsDigit (rest.getD (i + 1) '\x00') &&
      i + 2 < rest.length && 0x4E00 ≤ (rest.getD (i + 2) '\x00').toNat))).getD 0

/-- The statistics/results tail of `parse_racer_frame_line` (lines
679-814), starting from the whitespace-split `parts`; `none` models a
`float` conversion failure reaching the `except` handler. -/
def frameTail (parts : List String) : Option (ℚ × ℚ × ℚ × ℚ × String × ℚ × String × ℚ ×
    (List String) × String) :=
  if parts.length < 8 then none
  else
    match pyFloat (parts.getD 0 ""), pyFloat (parts.getD 1 ""),
        pyFloat (parts.getD 2 ""), pyFloat (parts.getD 3 "") with
    | some win_rate, some place_rate, some local_win_rate, some local_place_rate =>
      let motor_number := parts.getD 4 ""
      let curr_part := parts.getD 5 ""
      let split5 : Option (ℚ × String) :=
        if pyContains curr_part "." then
          let dot_idx := (pyFind curr_part ".").getD 0
          let rate? :=
            if dot_idx + 3 ≤ curr_part.toList.length then
              pyFloat (pySlice curr_part 0 (dot_idx + 3))
            else pyFloat curr_part
          let boat_number :=
            if dot_idx + 3 < curr_part.toList.length then
              pySliceFrom curr_part (dot_idx + 3)
            else ""
          (rate?).map (fun r => (r, boat_number))
        else some (0, curr_part)
      match split5 with
      | none => none
      | some (motor_2nd_rate, boat_number) =>
        match pyFloat (parts.getD 6 "") with
        | none => none
        | some boat_2nd_rate =>
          let digits1 := (parts.getD 7 "").toList.filter charIsDigit
          let pick := fun (l : List Char) (k : Nat) =>
            if k < l.length then String.mk [l.getD k '0'] else ""
          let r11 := pick digits1 0
          let r12 := pick digits1 1
          let r21 := pick digits1 2
          let r22 := pick digits1 3
          let r31 := pick digits1 4
          let second := if 8 < parts.length then some (parts.getD 8 "") else none
          let digits2 := ((second.getD "").toList.filter charIsDigit)
          let r32 := ""
          let r41 := if second.isSome then pick digits2 0 else ""
          let r42 := if second.isSome then pick digits2 1 else ""
          let r51 := if second.isSome then pick digits2 2 else ""
          let r52 := if second.isSome then pick digits2 3 else ""
          let r61 := if second.isSome then pick digits2 4 else ""
          let r62 := if second.isSome then pick digits2 5 else ""
          let hayami := if 9 < parts.length then parts.getD 9 "" else ""
          some (win_rate, place_rate, local_win_rate, local_place_rate, motor_number,
            motor_2nd_rate, boat_number, boat_2nd_rate,
            [r11, r12, r21, r22, r31, r32, r41, r42, r51, r52, r61, r62], hayami)
    | _, _, _, _ => none

/-- `parse_racer_frame_line` (parser.py lines 594-857): fixed positions
for entry number and registration, name until the age digits, then
prefecture/weight/class and the whitespace-separated statistics tail. -/
def parse_racer_frame_line (line : String) : Option RacerFrame :=
  let stripped := pyStrip line
  let cs := stripped.toList
  if cs.isEmpty ∨ cs.length < 15 then none
  else
    match digitVal? (cs.getD 0 '\x00') with
    | none => none
    | some entry_num =>
      if entry_num < 1 ∨ 6 < entry_num then none
      else if cs.length < 6 ∨ cs.getD 1 '\x00' ≠ ' ' then none
      else
        let registration_number := pySlice stripped 2 6
        let rest := cs.drop 6
        let name_end := nameEndScan rest
        if name_end = 0 then none
        else
          let racer_name := pyStrip (pyReplace (String.mk (rest.take name_end)) "　" " ")
          let remaining := rest.drop name_end
          let age_str := String.mk (remaining.take 2)
          let age : Int := if pyIsdigit age_str then ((natOfDigits? age_str.toList).getD 0 : Int) else 0
          let prefecture_chars := (remaining.drop 2).takeWhile (fun c => !charIsDigit c)
          let prefecture := String.mk prefecture_chars
          let iW := 2 + prefecture_chars.length
          let weight_str := String.mk ((remaining.drop iW).take 2)
          let weight : ℚ := if pyIsdigit weight_str then ((pyFloat weight_str).getD 0) else 0
          let iC := iW + 2
          let classGrade := pyStrip (String.mk ((remaining.drop iC).take 2))
          let iR := skipWhileIdx remaining (fun c => c = ' ') (iC + 2)
          let rest_text := pyStrip (String.mk (remaining.drop iR))
          let parts := pySplit rest_text
          match frameTail parts with
          | none => none
          | some (win_rate, place_rate, local_win_rate, local_place_rate, motor_number,
              motor_2nd_rate, boat_number, boat_2nd_rate, rs, hayami) =>
            some
              { entry_number := (entry_num : Int)
                registration_number := registration_number
                racer_name := racer_name
                age := age
                win_rate := win_rate
                place_rate := place_rate
                average_score := local_win_rate
                motor_number := motor_number
                motor_wins := if motor_2nd_rate ≠ 0 then pyTrunc motor_2nd_rate else 0
                motor_2nd := 0
                boat_number := boat_number
                boat_wins := if boat_2nd_rate ≠ 0 then pyTrunc boat_2nd_rate else 0
                boat_2nd := 0
                weight := weight
                adjustment := 0
                prefecture := prefecture
                classGrade := classGrade
                local_win_rate := local_win_rate
                local_place_rate := local_place_rate
                motor_2nd_rate := motor_2nd_rate
                boat_2nd_rate := boat_2nd_rate
                results_day1_race1 := rs.getD 0 ""
                results_day1_race2 := rs.getD 1 ""
                results_day2_race1 := rs.getD 2 ""
                results_day2_race2 := rs.getD 3 ""
                results_day3_race1 := rs.getD 4 ""
                results_day3_race2 := rs.getD 5 ""
                results_day4_race1 := rs.getD 6 ""
                results_day4_race2 := rs.getD 7 ""
                results_day5_race1 := rs.getD 8 ""
                results_day5_race2 := rs.getD 9 ""
                results_day6_race1 := rs.getD 10 ""
                results_day6_race2 := rs.getD 11 ""
                hayami := hayami }

/-! ## `parse_program_file` (parser.py lines 393-591) -/

/-- Scan state of `parse_program_file`. -/
structure PState where
  current : Option RaceProgram := none
  title : String := ""
  day_of_session : String := ""
  stadium : String := ""
  programCount : Nat := 0
  programs : List RaceProgram := []
deriving DecidableEq, Repr

/-- The save-previous-program step used on a new race-detail line and at
end of input (parser.py lines 492-494 and 573-575): a program is appended
only when it holds exactly six frames. -/
def progSave (current : Option RaceProgram) (programs : List RaceProgram) :
    List RaceProgram :=
  match current with
  | some p => if p.racer_frames.length = 6 then programs ++ [p] else programs
  | none => programs

/-- Venue extraction of the `ボートレース...月/年` branch
(parser.py lines 441-448). -/
def progVenueUpdate (st : PState) (line : String) : PState :=
  match pyFind line "ボートレース" with
  | none => st
  | some start_idx =>
    let venue_part := pyReplace (pySlice line start_idx (start_idx + 15)) "　" ""
    { st with stadium := if pyStartsWith venue_part "ボートレース" then venue_part else "" }

/-- Title extraction for the line following `番組表`
(parser.py lines 456-470). -/
def progTitleUpdate (st : PState) (line : String) : PState :=
  let stripped := pyStrip line
  if !pyStartsWith stripped "−" && !pyStartsWith stripped "第" &&
      !pyContains stripped "月" && !pyContains stripped "日" then
    if stripped.toList.any (fun c => 0x4E00 ≤ c.toNat) then
      { st with title := pyReplace stripped "　" "" }
    else st
  else st

/-- Day-of-session and stadium extraction on a detailed date line
(parser.py lines 474-488). -/
def progDateLineUpdate (st : PState) (line : String) : PState :=
  let st1 :=
    if pyContains line "第" then
      let f := (pyFind line "第").getD 0
      { st with day_of_session :=
          pyReplace (pyTranslate (pySlice line f (f + 4))) " " "" }
    else st
  if pyContains line "ボートレース" then
    let r := (pyRFind line "ボートレース").getD 0
    let stadium_match := pyReplace (pySlice line r (r + 15)) "　" ""
    if pyStartsWith stadium_match "ボートレース" then { st1 with stadium := stadium_match }
    else st1
  else st1

/-- The `電話投票締切予定` race-detail branch (parser.py lines 491-544):
save the previous program (six frames only) and start a new one from the
fixed columns of this line. -/
def progNewProgram (st : PState) (line : String) (date : String) : PState :=
  let programs' := progSave st.current st.programs
  let race_round_raw := pyReplace (pyTranslate (pySlice line 1 3)) " " ""
  let race_name := pyStrip (pyReplace (pySlice line 5 21) "　" "")
  let distance_part := pyReplace (pyTranslate (pySlice line 22 26)) " " ""
  let distance := distance_part
  let post_time :=
    match pyFind line "電話投票締切予定" with
    | some deadline_idx =>
      pyReplace (pyTranslate (pySlice line (deadline_idx + 8) (deadline_idx + 13))) " " ""
    | none => ""
  { st with
    programs := programs'
    current := some
      { date := date
        stadium := if st.stadium ≠ "" then st.stadium else "福岡"
        race_round := race_round_raw
        title := st.title
        day_of_session := st.day_of_session
        race_name := race_name
        distance := distance
        post_time := post_time }
    programCount := st.programCount + 1 }

/-- One full iteration of the `parse_program_file` while-loop body
(parser.py lines 431-571) at index `i`: returns the next index and
state.  The branches fall through exactly as in the source; `continue`
is modelled by returning early. -/
def progBody (lines : List String) (date : String) (i : Nat) (st : PState) :
    Nat × PState :=
  let line := lines.getD i ""
  let i1 := i + 1
  if pyStrip line = "" then (i1, st)
  else
    let stA :=
      if pyContains line "ボートレース" &&
          (pyContains line "月" || pyContains line "年") then
        progVenueUpdate st line
      else st
    if pyContains line "番組表" then (i1, { stA with title := "" })
    else
      let stB :=
        if stA.title = "" && pyStrip line ≠ "" then progTitleUpdate stA line else stA
      let stC :=
        if pyContains line "年" && pyContains line "月" && pyContains line "日" then
          progDateLineUpdate stB line
        else stB
      if pyContains line "電話投票締切予定" then
        (min (i1 + 3) lines.length, progNewProgram stC line date)
      else if pyContains line "艇" && pyContains line "選手" && pyContains line "番" then
        if pyContains line "---" || pyContains line "━" then (i1, stC)
        else if i1 < lines.length &&
            (pyContains (lines.getD i1 "") "---" || pyContains (lines.getD i1 "") "━") then
          (i1 + 1, stC)
        else (i1, stC)
      else
        match stC.current with
        | some p =>
          if p.racer_frames.length < 6 then
            if pyStrip line ≠ "" && !pyContains line "---" && !pyContains line "電話投票" then
              match parse_racer_frame_line line with
              | some frame =>
                let p' := { p with racer_frames := p.racer_frames ++ [frame] }
                (i1, { stC with current := some p' })
              | none => (i1, stC)
            else (i1, stC)
          else (i1, stC)
        | none => (i1, stC)

/-- The `parse_program_file` while-loop; the fuel is the number of lines
and every iteration advances the index by at least one. -/
def progLoop (lines : List String) (date : String) : Nat → Nat → PState → PState
  | 0, _, st => st
  | fuel + 1, i, st =>
    if i < lines.length then
      let (i', st') := progBody lines date i st
      progLoop lines date fuel i' st'
    else st

/-- `parse_program_file` (parser.py lines 393-591): clean CRLF endings,
scan the lines, and append the final program only when it holds exactly
six frames.  As with the K-file parser, the top-level `try/except` has no
reachable failure in this total embedding. -/
def parse_program_file (content : String) (date : String) : List RaceProgram :=
  let lines := (pySplitOnChar (pyStrip content) '\n').map pyRstripCr
  if lines.isEmpty then []
  else
    let final := progLoop lines date lines.length 0 {}
    progSave final.current final.programs

/-! ## Concrete bulletins and lines used by the witnesses -/

/-- A minimal results bulletin: one confirmed header, the column-title
marker, and six decodable entrant lines. -/
def kDemoContent : String :=
  " 1R ナイター\n" ++
  "  着 艇 登番 選手名\n" ++
  "  1  1 4444 ボート タロウ 10 20 6.50 1 0.10 1.49.7\n" ++
  "  2  2 4445 アオキ ジロウ 11 21 6.60 2 0.12 1.50.1\n" ++
  "  3  3 4446 キムラ サブロ 12 22 6.70 3 0.14 1.51.3\n" ++
  "  4  4 4447 タナカ シロウ 13 23 6.80 4 0.16 1.52.5\n" ++
  "  5  5 4448 サトウ ゴロウ 14 24 6.90 5 0.18 1.53.7\n" ++
  "  6  6 4449 ワタベ ロクロ 15 25 7.00 6 0.20 1.54.9"

/-- A default race value used only to read off parse results in closed
statements. -/
def dRace : RaceResult := { date := "", stadium := "", race_round := "", title := "" }

/-- The spec's header-validator rejection example: a `12X` line followed
by unrelated lines with no marker in the look-ahead window. -/
def demo12X : List String := ["12X", "unrelated line", "no marker here", "still nothing"]

/-- A program bulletin whose single race block decodes exactly one frame
before end of input. -/
def progDemoContent : String :=
  "STARTB\n" ++
  "　１Ｒ  カタメン１予      Ｈ１８００ｍ  電話投票締切予定１０：３０\n" ++
  "x1\n" ++ "x2\n" ++ "x3\n" ++
  "1 4488小山　勉39埼玉53A1 6.08 41.67 6.58 66.67 13 33.97170 29.94 63331 35    10"

/-- The line list of `progDemoContent` as the program parser sees it. -/
def progDemoLines : List String :=
  (pySplitOnChar (pyStrip progDemoContent) '\n').map pyRstripCr

/-- A decodable program-frame line (the example from the source comment
of `parse_racer_frame_line`). -/
def frameDemoLine : String :=
  "1 4488小山　勉39埼玉53A1 6.08 41.67 6.58 66.67 13 33.97170 29.94 63331 35    10"

/-- Betting lines where the invalidation marker sits on a category
keyword line and a later line still sets a betting field. -/
def betMarkerOnKeywordLines : List String :=
  ["単勝  1   100  不成立", "２連単 1-2  500"]

/-- Betting lines where a continuation pair follows an exacta line. -/
def betContinuationAfterExacta : List String :=
  ["２連単 1-2  500", " 3  100"]

/-- An entrant line with an out-of-range finishing position (7). -/
def badResultLine : String := "  7  1 4444 ボート タロウ 10 20 6.50 1 0.10 1.49.7"

/-- A frame line whose entry number (7) is out of range. -/
def badFrameLine : String :=
  "7 4488小山　勉39埼玉53A1 6.08 41.67 6.58 66.67 13 33.97170 29.94 63331 35    10"

/-- Nine whitespace tokens forming an otherwise plausible entrant prefix. -/
def nineTokenLine : String := "1 2 3333 アオキ 10 20 6.50 1 0.10"

/-- The same row with a tenth token, which decodes successfully. -/
def tenTokenLine : String := "1 2 3333 アオキ 10 20 6.50 1 0.10 108.9"

/-- The racer-range invariant: every decoded entrant of a race carries a
finishing position between 1 and 6. -/
def racersOK (r : RaceResult) : Prop :=
  ∀ rc ∈ r.racers, 1 ≤ rc.result ∧ rc.result ≤ 6

/-- A one-entrant racer value for witness states. -/
def rcDemo : RacerResult := { number := 1, name := "デモ", weight := none, result := 1 }

/-- A race holding a single decoded entrant. -/
def r1Demo : RaceResult := { dRace with racers := [rcDemo] }

/-- A scan state holding an in-progress one-entrant race. -/
def kDemoState : KState := { current := some r1Demo, lastRacerIdx := 3 }

/-- A betting state in the place category. -/
def betDemoStateFukusho : BetState := { race := dRace, inBetting := true, lastBet := "fukusho" }

/-- A betting state after an exacta line. -/
def betDemoStateSantan : BetState := { race := dRace, inBetting := true, lastBet := "santan" }

/-! ## Helper lemmas -/

/-- A fold preserves any invariant its step preserves. -/
theorem listFoldlPreserve {α β : Type} (f : β → α → β) (P : β → Prop)
    (step : ∀ b a, P b → P (f b a)) : ∀ (l : List α) (b), P b → P (l.foldl f b) := by
  intro l
  induction l with
  | nil => intro b h; exact h
  | cons a t ih => intro b h; exact ih (f b a) (step b a h)

/-- Characters in the image of the translation table are not in its
domain. -/
theorem transImage_not_domain : ∀ c ∈ transImage, c ∉ transDomain := by decide

/-- Characters outside the table's domain pass through `transAsc`. -/
theorem transAsc_eq_self_of_not_mem {c : Char} (h : c ∉ transDomain) : transAsc c = c := by
  have h1 : ¬(c = '１') := fun e => h (by rw [e]; decide)
  have h2 : ¬(c = '２') := fun e => h (by rw [e]; decide)
  have h3 : ¬(c = '３') := fun e => h (by rw [e]; decide)
  have h4 : ¬(c = '４') := fun e => h (by rw [e]; decide)
  have h5 : ¬(c = '５') := fun e => h (by rw [e]; decide)
  have h6 : ¬(c = '６') := fun e => h (by rw [e]; decide)
  have h7 : ¬(c = '７') := fun e => h (by rw [e]; decide)
  have h8 : ¬(c = '８') := fun e => h (by rw [e]; decide)
  have h9 : ¬(c = '９') := fun e => h (by rw [e]; decide)
  have h10 : ¬(c = '０') := fun e => h (by rw [e]; decide)
  have h11 : ¬(c = 'Ｒ') := fun e => h (by rw [e]; decide)
  have h12 : ¬(c = '：') := fun e => h (by rw [e]; decide)
  have h13 : ¬(c = '　') := fun e => h (by rw [e]; decide)
  unfold transAsc
  rw [if_neg h1, if_neg h2, if_neg h3, if_neg h4, if_neg h5, if_neg h6, if_neg h7,
    if_neg h8, if_neg h9, if_neg h10, if_neg h11, if_neg h12, if_neg h13]

/-- `transAsc` either fixes a character or sends it into the image. -/
theorem transAsc_cases (c : Char) : transAsc c = c ∨ transAsc c ∈ transImage := by
  by_cases h : c ∈ transDomain
  · simp only [transDomain, List.mem_cons, List.not_mem_nil, or_false] at h
    rcases h with rfl | rfl | rfl | rfl | rfl | rfl | rfl | rfl | rfl | rfl | rfl | rfl | rfl <;>
      (right; decide)
  · exact Or.inl (transAsc_eq_self_of_not_mem h)

/-- The character translation is idempotent. -/
theorem transAsc_idem (c : Char) : transAsc (transAsc c) = transAsc c := by
  rcases transAsc_cases c with h | h
  · rw [h]; exact h
  · exact transAsc_eq_self_of_not_mem (transImage_not_domain _ h)

/-- List version of translation idempotence. -/
theorem transAsc_map_idem (l : List Char) :
    (l.map transAsc).map transAsc = l.map transAsc := by
  induction l with
  | nil => rfl
  | cons c t ih => simp [List.map_cons, ih, transAsc_idem]

/-- A line that splits into fewer than ten tokens yields no entrant. -/
theorem parse_racer_result_line_short (line : String)
    (h : (pySplit line).length < 10) : parse_racer_result_line line = none := by
  unfold parse_racer_result_line
  exact if_pos h

/-! ## Claim theorems -/

/-- C9: the glyph normalizer (the fixed full-width-to-ASCII translation
table `trans_asc`) is idempotent — applying the translation twice yields
the same string as applying it once — and every character outside the
table passes through unchanged. -/
theorem C9_normalizer_idempotent :
    (∀ s : String, pyTranslate (pyTranslate s) = pyTranslate s) ∧
    (∀ c : Char, c ∉ transDomain → transAsc c = c) := by
  constructor
  · intro s
    unfold pyTranslate
    exact congrArg String.mk (transAsc_map_idem s.toList)
  · intro c h
    exact transAsc_eq_self_of_not_mem h

/-- Witness for C9 at the concrete character `A` (not in the table). -/
theorem C9_normalizer_idempotent_witness :
    ('A' ∉ transDomain) ∧ transAsc 'A' = 'A' :=
  ⟨by decide, C9_normalizer_idempotent.2 'A' (by decide)⟩

/-- C10: a line with fewer than ten whitespace tokens never decodes to an
entrant (ten tokens is the hard minimum), and a ten-token row does
decode. -/
theorem C10_min_token_threshold :
    (∀ line : String, (pySplit line).length < 10 → parse_racer_result_line line = none) ∧
    (parse_racer_result_line tenTokenLine).isSome = true := by
  constructor
  · exact parse_racer_result_line_short
  · decide

/-- Witness for C10: a nine-token line that is otherwise a valid entrant
prefix decodes to nothing. -/
theorem C10_min_token_threshold_witness :
    (pySplit nineTokenLine).length < 10 ∧ parse_racer_result_line nineTokenLine = none :=
  ⟨by decide, C10_min_token_threshold.1 nineTokenLine (by decide)⟩

/-- `String.toList` distributes over append. -/
theorem stringToListAppend (x y : String) : (x ++ y).toList = x.toList ++ y.toList := rfl

/-- `String.mk` is a left inverse of `String.toList`. -/
theorem stringMkToList (x : String) : String.mk x.toList = x := rfl

/-- Splitting passes over a separator-free prefix. -/
theorem pySplitOnCharAux_append (sep : Char) (pre t acc : List Char) (h : sep ∉ pre) :
    pySplitOnCharAux sep acc (pre ++ sep :: t) =
      String.mk (acc.reverse ++ pre) :: pySplitOnCharAux sep [] t := by
  induction pre generalizing acc with
  | nil => simp [pySplitOnCharAux]
  | cons x xs ih =>
    have hx : ¬(x = sep) := fun e => h (by rw [e]; exact List.mem_cons_self _ _)
    have hxs : sep ∉ xs := fun m => h (List.mem_cons_of_mem _ m)
    simp only [List.cons_append, pySplitOnCharAux, if_neg hx, List.append_eq]
    rw [ih _ hxs]
    simp

/-- Splitting a separator-free list yields a single piece. -/
theorem pySplitOnCharAux_no_sep (sep : Char) (l acc : List Char) (h : sep ∉ l) :
    pySplitOnCharAux sep acc l = [String.mk (acc.reverse ++ l)] := by
  induction l generalizing acc with
  | nil => simp [pySplitOnCharAux]
  | cons x xs ih =>
    have hx : ¬(x = sep) := fun e => h (by rw [e]; exact List.mem_cons_self _ _)
    have hxs : sep ∉ xs := fun m => h (List.mem_cons_of_mem _ m)
    simp only [pySplitOnCharAux, if_neg hx]
    rw [ih _ hxs]
    simp

/-- The character list underlying an `M.SS.T` spelling. -/
theorem timeTokenToList (a b c : String) :
    (a ++ "." ++ b ++ "." ++ c).toList =
      a.toList ++ '.' :: (b.toList ++ '.' :: c.toList) := by
  simp [stringToListAppend, List.append_assoc]

/-- Splitting an `M.SS.T` spelling on its points recovers the parts. -/
theorem pySplitOnChar_three (a b c : String) (ha : '.' ∉ a.toList)
    (hb : '.' ∉ b.toList) (hc : '.' ∉ c.toList) :
    pySplitOnChar (a ++ "." ++ b ++ "." ++ c) '.' = [a, b, c] := by
  unfold pySplitOnChar
  rw [timeTokenToList, pySplitOnCharAux_append _ _ _ _ ha,
    pySplitOnCharAux_append _ _ _ _ hb, pySplitOnCharAux_no_sep _ _ _ hc]
  simp [stringMkToList]

/-- An `M.SS.T` spelling contains exactly two points. -/
theorem countChar_time_token (a b c : String) (ha : '.' ∉ a.toList)
    (hb : '.' ∉ b.toList) (hc : '.' ∉ c.toList) :
    countChar (a ++ "." ++ b ++ "." ++ c) '.' = 2 := by
  have ca : a.toList.count '.' = 0 := List.count_eq_zero_of_not_mem ha
  have cb : b.toList.count '.' = 0 := List.count_eq_zero_of_not_mem hb
  have cc : c.toList.count '.' = 0 := List.count_eq_zero_of_not_mem hc
  have ca' : List.count '.' a.data = 0 := ca
  have cb' : List.count '.' b.data = 0 := cb
  have cc' : List.count '.' c.data = 0 := cc
  unfold countChar
  rw [timeTokenToList]
  simp [List.count_append, List.count_cons, ca', cb', cc']

/-- C2: a finish-time token of shape `M.SS.T` (two points, integer parts)
decodes to `minutes*60 + seconds + tenths/10` total seconds, a token with
at most one point decodes exactly as Python `float` reads it (seconds,
unchanged), and in particular `"1.49.7"` gives `109.7` and `"108.9"`
gives `108.9`. -/
theorem C2_finish_time_decoding :
    (∀ a b c : String, ∀ m se t : Int,
      '.' ∉ a.toList → '.' ∉ b.toList → '.' ∉ c.toList →
      pyInt a = some m → pyInt b = some se → pyInt c = some t →
      decodeRaceTime (a ++ "." ++ b ++ "." ++ c) =
        some ((m : ℚ) * 60 + (se : ℚ) + (t : ℚ) / 10)) ∧
    (∀ s : String, countChar s '.' ≤ 1 → decodeRaceTime s = pyFloat s) ∧
    decodeRaceTime "1.49.7" = some (109.7 : ℚ) ∧
    decodeRaceTime "108.9" = some (108.9 : ℚ) := by
  refine ⟨?_, ?_, by decide, by decide⟩
  · intro a b c m se t ha hb hc hia hib hic
    have hcount := countChar_time_token a b c ha hb hc
    have hsplit := pySplitOnChar_three a b c ha hb hc
    have hne : ¬(a ++ "." ++ b ++ "." ++ c = "" ∨ a ++ "." ++ b ++ "." ++ c = ".") := by
      rintro (e | e)
      · have := timeTokenToList a b c
        rw [e] at this
        simp at this
      · rw [e] at hcount
        exact absurd hcount (by decide)
    unfold decodeRaceTime
    rw [if_neg hne, if_pos hcount]
    simp only [hsplit, List.length_cons, List.length_nil, List.getD_cons_zero,
      List.getD_cons_succ, hia, hib, hic]
    simp
  · intro s h
    by_cases hs : s = "" ∨ s = "."
    · unfold decodeRaceTime
      rw [if_pos hs]
      rcases hs with rfl | rfl <;> decide
    · have h2 : ¬(countChar s '.' = 2) := by omega
      unfold decodeRaceTime
      rw [if_neg hs, if_neg h2]

/-- Witness for C2: the two round-trip examples, discharged through the
general statements. -/
theorem C2_finish_time_decoding_witness :
    (pyInt "1" = some 1 ∧
      decodeRaceTime ("1" ++ "." ++ "49" ++ "." ++ "7") =
        some ((1 : ℚ) * 60 + (49 : ℚ) + (7 : ℚ) / 10)) ∧
    (countChar "108.9" '.' ≤ 1 ∧ decodeRaceTime "108.9" = pyFloat "108.9") :=
  ⟨⟨by decide, C2_finish_time_decoding.1 "1" "49" "7" 1 49 7 (by decide) (by decide)
      (by decide) (by decide) (by decide) (by decide)⟩,
    ⟨by decide, C2_finish_time_decoding.2.1 "108.9" (by decide)⟩⟩

/-- C4: an index is confirmed by the header validator if and only if its
line matches the header shape and the column-title marker appears within
the next three lines; a `12X` line followed by unrelated lines with no
marker yields zero confirmed headers. -/
theorem C4_header_validator_iff :
    (∀ (lines : List String) (i : Nat),
      i ∈ validRaceHeaders lines ↔
        (i < lines.length ∧ isPotentialRaceHeader (lines.getD i "") = true ∧
          ∃ j, i + 1 ≤ j ∧ j < min (i + 4) lines.length ∧
            lineHasMarker (lines.getD j "") = true)) ∧
    validRaceHeaders demo12X = [] := by
  constructor
  · intro lines i
    unfold validRaceHeaders
    simp only [List.mem_filter, List.mem_range, Bool.and_eq_true, List.any_eq_true,
      List.mem_range'_1]
    constructor
    · rintro ⟨h1, h2, j, ⟨hj1, hj2⟩, hj3⟩
      exact ⟨h1, h2, j, hj1, by omega, hj3⟩
    · rintro ⟨h1, h2, j, hj1, hj2, hj3⟩
      exact ⟨h1, h2, j, ⟨hj1, by omega⟩, hj3⟩
  · decide

/-- The `競走成績` branch only updates the captured header strings. -/
theorem kHeaderInfoUpdate_fields (lines : List String) (i : Nat) (st : KState) :
    (kHeaderInfoUpdate lines i st).current = st.current ∧
    (kHeaderInfoUpdate lines i st).races = st.races ∧
    (kHeaderInfoUpdate lines i st).lastRacerIdx = st.lastRacerIdx ∧
    (kHeaderInfoUpdate lines i st).inDetail = st.inDetail := by
  unfold kHeaderInfoUpdate
  refine ⟨?_, ?_, ?_, ?_⟩ <;> dsimp only <;> (repeat' split) <;> rfl

/-- With no confirmed header, a scan step leaves the accumulator without
a current race and with no completed races. -/
theorem kStep_no_header (lines : List String) (date : String) (st : KState)
    (i : Nat) (l : String) (hc : st.current = none) (hr : st.races = []) :
    (kStep lines [] date st i l).current = none ∧ (kStep lines [] date st i l).races = [] := by
  unfold kStep
  by_cases he : pyRstrip l = ""
  · rw [if_pos he]; exact ⟨hc, hr⟩
  · rw [if_neg he]
    have hvh : (([] : List Nat).contains i) = false := rfl
    set st1 := if pyContains (pyRstrip l) "競走成績" then kHeaderInfoUpdate lines i st else st with hst1
    have h1 : st1.current = none ∧ st1.races = [] := by
      rw [hst1]
      split
      · exact ⟨(kHeaderInfoUpdate_fields lines i st).1.trans hc,
          (kHeaderInfoUpdate_fields lines i st).2.1.trans hr⟩
      · exact ⟨hc, hr⟩
    rw [hvh]
    simp only [Bool.false_eq_true, if_false]
    split
    · exact ⟨by simp [h1.1], by simp [h1.2]⟩
    · rw [h1.1]
      exact ⟨h1.1, h1.2⟩

/-- C5: `parse_result_file` is total (the embedding returns a plain list
for every input), and when the pre-scan confirms no race header the
result is the empty sequence rather than an error. -/
theorem C5_no_header_empty_output :
    ∀ content date : String,
      validRaceHeaders (pySplitOnChar (pyStrip content) '\n') = [] →
      parse_result_file content date = [] := by
  intro content date h
  unfold parse_result_file
  by_cases hl : (pySplitOnChar (pyStrip content) '\n').isEmpty
  · rw [if_pos hl]
  · rw [if_neg hl, h]
    have inv := listFoldlPreserve
      (fun st p => kStep (pySplitOnChar (pyStrip content) '\n') [] date st p.1 p.2)
      (fun st => st.current = none ∧ st.races = [])
      (fun st p hp => kStep_no_header _ date st p.1 p.2 hp.1 hp.2)
      (pySplitOnChar (pyStrip content) '\n').enum {} ⟨rfl, rfl⟩
    simp only [kFinish, inv.1, inv.2]

/-- Witness for C5: a content with no header shape at all parses to the
empty list. -/
theorem C5_no_header_empty_output_witness :
    validRaceHeaders (pySplitOnChar (pyStrip "hello\nworld") '\n') = [] ∧
    parse_result_file "hello\nworld" "" = [] :=
  ⟨by decide, C5_no_header_empty_output "hello\nworld" "" (by decide)⟩

/-- An entrant row whose decoded position/boat pair is out of range
yields no entrant. -/
theorem parse_racer_result_line_out_of_range (line : String) (r n : Int)
    (h0 : pyInt ((pySplit line).getD 0 "") = some r)
    (h1 : pyInt ((pySplit line).getD 1 "") = some n)
    (hrange : ¬(1 ≤ n ∧ n ≤ 6 ∧ 1 ≤ r ∧ r ≤ 6)) :
    parse_racer_result_line line = none := by
  unfold parse_racer_result_line
  dsimp only
  split
  · rfl
  · simp only [h0, h1]
    rw [if_neg hrange]

/-- A frame row whose entry digit is out of range yields no frame. -/
theorem parse_racer_frame_line_entry_range (line : String) (d : Nat)
    (hd : digitVal? ((pyStrip line).toList.getD 0 '\x00') = some d)
    (hrange : d < 1 ∨ 6 < d) :
    parse_racer_frame_line line = none := by
  unfold parse_racer_frame_line
  dsimp only
  split
  · rfl
  · simp only [hd]
    rw [if_pos hrange]

/-- Race-name extraction does not touch the entrant list. -/
theorem updRaceName_racers (race : RaceResult) (line : String) :
    (updRaceName race line).racers = race.racers := by
  unfold updRaceName
  dsimp only
  repeat' split
  all_goals rfl

/-- Distance extraction does not touch the entrant list. -/
theorem updDistance_racers (race : RaceResult) (line : String) :
    (updDistance race line).racers = race.racers := by
  unfold updDistance
  dsimp only
  repeat' split
  all_goals rfl

/-- Weather extraction does not touch the entrant list. -/
theorem updWeather_racers (race : RaceResult) (line : String) :
    (updWeather race line).racers = race.racers := by
  unfold updWeather
  repeat' split
  all_goals rfl

/-- Wind-direction extraction does not touch the entrant list. -/
theorem updWindDirection_racers (race : RaceResult) (line : String) :
    (updWindDirection race line).racers = race.racers := by
  unfold updWindDirection
  repeat' split
  all_goals rfl

/-- Wind-speed extraction does not touch the entrant list. -/
theorem updWindSpeed_racers (race : RaceResult) (line : String) :
    (updWindSpeed race line).racers = race.racers := by
  unfold updWindSpeed
  dsimp only
  repeat' split
  all_goals rfl

/-- Wave-height extraction does not touch the entrant list. -/
theorem updWaveHeight_racers (race : RaceResult) (line : String) :
    (updWaveHeight race line).racers = race.racers := by
  unfold updWaveHeight
  dsimp only
  repeat' split
  all_goals rfl

/-- Winning-technique extraction does not touch the entrant list. -/
theorem updWinningTechnique_racers (race : RaceResult) (all_lines : List String)
    (line_index : Nat) :
    (updWinningTechnique race all_lines line_index).racers = race.racers := by
  unfold updWinningTechnique
  dsimp only
  repeat' split
  all_goals rfl

/-- `_extract_race_details` never changes the decoded entrant list. -/
theorem extractRaceDetails_racers (race : RaceResult) (line : String)
    (all_lines : List String) (line_index : Nat) :
    (extractRaceDetails race line all_lines line_index).racers = race.racers := by
  unfold extractRaceDetails
  rw [updWinningTechnique_racers, updWaveHeight_racers, updWindSpeed_racers,
    updWindDirection_racers, updWeather_racers, updDistance_racers, updRaceName_racers]

/-- A line whose decode fails appends nothing in the racer branch. -/
theorem kTryRacer_none (st : KState) (r : RaceResult) (line : String) (i : Nat)
    (h : parse_racer_result_line line = none) : kTryRacer st r line i = st := by
  unfold kTryRacer
  split
  · rw [h]
  · rfl

/-- C6: a decoding failure — insufficient tokens, or an entry/boat or
finishing number outside 1-6 — makes the line decoders return `none`
rather than raising, and on such a line the scan step appends nothing to
the in-progress race (its entrant list and the completed races are
unchanged). -/
theorem C6_decoder_failure_returns_none :
    (∀ line : String, (pySplit line).length < 10 → parse_racer_result_line line = none) ∧
    (∀ (line : String) (r n : Int),
      pyInt ((pySplit line).getD 0 "") = some r →
      pyInt ((pySplit line).getD 1 "") = some n →
      ¬(1 ≤ n ∧ n ≤ 6 ∧ 1 ≤ r ∧ r ≤ 6) →
      parse_racer_result_line line = none) ∧
    (∀ (line : String) (d : Nat),
      digitVal? ((pyStrip line).toList.getD 0 '\x00') = some d →
      (d < 1 ∨ 6 < d) →
      parse_racer_frame_line line = none) ∧
    (∀ (lines : List String) (vh : List Nat) (date : String) (st : KState)
        (i : Nat) (raw : String) (r : RaceResult),
      st.current = some r →
      vh.contains i = false →
      parse_racer_result_line (pyRstrip raw) = none →
      ∃ r', (kStep lines vh date st i raw).current = some r' ∧
        r'.racers = r.racers ∧ (kStep lines vh date st i raw).races = st.races) := by
  refine ⟨parse_racer_result_line_short, parse_racer_result_line_out_of_range,
    parse_racer_frame_line_entry_range, ?_⟩
  intro lines vh date st i raw r hcur hvh hnone
  unfold kStep
  by_cases he : pyRstrip raw = ""
  · rw [if_pos he]
    exact ⟨r, hcur, rfl, rfl⟩
  · rw [if_neg he]
    set st1 := if pyContains (pyRstrip raw) "競走成績" then kHeaderInfoUpdate lines i st
      else st with hst1
    have hfields : st1.current = st.current ∧ st1.races = st.races := by
      rw [hst1]
      split
      · exact ⟨(kHeaderInfoUpdate_fields lines i st).1, (kHeaderInfoUpdate_fields lines i st).2.1⟩
      · exact ⟨rfl, rfl⟩
    rw [hvh]
    simp only [Bool.false_eq_true, if_false]
    split
    · exact ⟨r, by simp [hfields.1, hcur], rfl, by simp [hfields.2]⟩
    · rw [hfields.1, hcur]
      dsimp only
      split
      · exact ⟨extractRaceDetails r (pyRstrip raw) lines i, by simp,
          extractRaceDetails_racers r (pyRstrip raw) lines i, by simp [hfields.2]⟩
      · split
        · rw [kTryRacer_none st1 r (pyRstrip raw) i hnone]
          exact ⟨r, by simp [hfields.1, hcur], rfl, hfields.2⟩
        · exact ⟨r, by simp [hfields.1, hcur], rfl, hfields.2⟩

/-- Witness for C6: an out-of-range finishing position (7) and an
out-of-range frame entry number (7) decode to nothing. -/
theorem C6_decoder_failure_returns_none_witness :
    parse_racer_result_line badResultLine = none ∧
    parse_racer_frame_line badFrameLine = none :=
  ⟨C6_decoder_failure_returns_none.2.1 badResultLine 7 1 (by decide) (by decide) (by decide),
    C6_decoder_failure_returns_none.2.2.1 badFrameLine 7 (by decide) (by decide)⟩

/-- The win branch only touches the `tansho` field. -/
theorem betTansho_racers (race : RaceResult) (line : String) :
    (betTansho race line).racers = race.racers := by
  unfold betTansho
  dsimp only
  repeat' split
  all_goals rfl

/-- The place branch only touches the `fukusho` field. -/
theorem betFukusho_racers (race : RaceResult) (line : String) :
    (betFukusho race line).racers = race.racers := by
  unfold betFukusho
  dsimp only
  repeat' split
  all_goals rfl

/-- The exacta branch only touches the `santan` field. -/
theorem betSantan_racers (race : RaceResult) (line : String) :
    (betSantan race line).racers = race.racers := by
  unfold betSantan
  dsimp only
  repeat' split
  all_goals rfl

/-- The quinella branch only touches the `renfuku` field. -/
theorem betRenfuku_racers (race : RaceResult) (line : String) :
    (betRenfuku race line).racers = race.racers := by
  unfold betRenfuku
  dsimp only
  repeat' split
  all_goals rfl

/-- The wide branch only touches the `wide` field. -/
theorem betWide_racers (race : RaceResult) (l1 l2 l3 : String) (b : Bool) :
    (betWide race l1 l2 l3 b).racers = race.racers := by
  unfold betWide
  dsimp only
  repeat' split
  all_goals rfl

/-- The trifecta branch only touches the `santan_yosoku` field. -/
theorem betSantanYosoku_racers (race : RaceResult) (line : String) :
    (betSantanYosoku race line).racers = race.racers := by
  unfold betSantanYosoku
  dsimp only
  repeat' split
  all_goals rfl

/-- The trio branch only touches the `trio` field. -/
theorem betTrio_racers (race : RaceResult) (line : String) :
    (betTrio race line).racers = race.racers := by
  unfold betTrio
  dsimp only
  repeat' split
  all_goals rfl

/-- The continuation branch only touches the `fukusho` field. -/
theorem betContinuation_racers (s : BetState) (line : String) :
    (betContinuation s line).race.racers = s.race.racers := by
  unfold betContinuation
  dsimp only
  repeat' split
  all_goals rfl

set_option maxHeartbeats 2000000 in
/-- A betting-extraction step never changes the decoded entrant list. -/
theorem bettingStep_racers (l1 l2 l3 : String) (b : Bool) (s s' : BetState)
    (h : bettingStep l1 l2 l3 b s = some s') : s'.race.racers = s.race.racers := by
  unfold bettingStep at h
  dsimp only at h
  repeat' split at h
  all_goals first
  | (cases h
     first
     | rfl
     | exact betTansho_racers _ _
     | exact betFukusho_racers _ _
     | exact betSantan_racers _ _
     | exact betRenfuku_racers _ _
     | exact betWide_racers _ _ _ _ _
     | exact betSantanYosoku_racers _ _
     | exact betTrio_racers _ _
     | exact betContinuation_racers _ _)
  | simp at h

/-- The betting scan never changes the decoded entrant list. -/
theorem bettingLoop_racers (ls : List String) : ∀ s : BetState,
    (bettingLoop s ls).racers = s.race.racers := by
  induction ls with
  | nil => intro s; rfl
  | cons l rest ih =>
    intro s
    unfold bettingLoop
    dsimp only
    split
    · rfl
    · rename_i s' hs'
      exact (ih s').trans (bettingStep_racers _ _ _ _ _ _ hs')

/-- `_extract_betting_results` keeps the already-decoded entrants. -/
theorem extract_betting_results_racers (race : RaceResult) (lines : List String)
    (start : Nat) : (extract_betting_results race lines start).racers = race.racers := by
  unfold extract_betting_results
  exact bettingLoop_racers _ _

/-- Once a step stops, the scan returns the race unchanged and ignores
every later line. -/
theorem bettingLoop_stop (s : BetState) (l : String) (rest : List String)
    (h : ∀ (l2 l3 : String) (b : Bool), bettingStep l l2 l3 b s = none) :
    bettingLoop s (l :: rest) = s.race := by
  unfold bettingLoop
  dsimp only
  rw [h]

/-- A blank line stops the scan once a category has been seen. -/
theorem bettingStep_blank (l1 l2 l3 : String) (b : Bool) (s : BetState)
    (h1 : pyRstrip l1 = "") (h2 : s.inBetting = true) :
    bettingStep l1 l2 l3 b s = none := by
  unfold bettingStep
  rw [h1]
  simp [h2]

/-- A line carrying the invalidation marker and no category keyword
stops the scan. -/
theorem bettingStep_invalidated (l1 l2 l3 : String) (b : Bool) (s : BetState)
    (hm : pyContains (pyRstrip l1) "不成立" = true)
    (hkw : ∀ kw ∈ betCategoryKeywords, pyContains (pyRstrip l1) kw = false) :
    bettingStep l1 l2 l3 b s = none := by
  have hne : ¬(pyRstrip l1 = "") := by
    intro e
    rw [e] at hm
    exact absurd hm (by decide)
  have k1 := hkw "単勝" (by decide)
  have k2 := hkw "複勝" (by decide)
  have k3 := hkw "２連単" (by decide)
  have k4 := hkw "2連単" (by decide)
  have k5 := hkw "２連複" (by decide)
  have k6 := hkw "2連複" (by decide)
  have k7 := hkw "拡連複" (by decide)
  have k8 := hkw "３連単" (by decide)
  have k9 := hkw "3連単" (by decide)
  have k10 := hkw "３連複" (by decide)
  have k11 := hkw "3連複" (by decide)
  unfold bettingStep
  simp [hne, hm, k1, k2, k3, k4, k5, k6, k7, k8, k9, k10, k11]

/-- C7 counterexample: on a line that carries both a category keyword and
the invalidation marker (`単勝 ... 不成立`), scanning does not stop — the
next line still sets a betting field (`santan`), contradicting the claim
that extraction stops immediately upon a line containing the marker. -/
theorem C7_counterexample :
    pyContains (betMarkerOnKeywordLines.getD 0 "") "不成立" = true ∧
    (extract_betting_results dRace betMarkerOnKeywordLines 0).santan = some "1-2,500," ∧
    (extract_betting_results dRace betMarkerOnKeywordLines 0).tansho = some "1,100" := by
  refine ⟨by decide, by decide, by decide⟩

/-- C7 (amended): scanning stops at the first blank line once a category
keyword has been matched (the in-betting flag is set), and stops on a
line that contains the invalidation marker and no category keyword; a
line carrying both a category keyword and the marker is handled as that
category.  After a stop the race is returned as is (later lines set no
further fields), and the already-decoded entrants are never changed by
the betting extraction. -/
theorem C7_amended_stop_conditions :
    (∀ (l1 l2 l3 : String) (b : Bool) (s : BetState),
      pyRstrip l1 = "" → s.inBetting = true → bettingStep l1 l2 l3 b s = none) ∧
    (∀ (l1 l2 l3 : String) (b : Bool) (s : BetState),
      pyContains (pyRstrip l1) "不成立" = true →
      (∀ kw ∈ betCategoryKeywords, pyContains (pyRstrip l1) kw = false) →
      bettingStep l1 l2 l3 b s = none) ∧
    (∀ (s : BetState) (l : String) (rest : List String),
      (∀ (l2 l3 : String) (b : Bool), bettingStep l l2 l3 b s = none) →
      bettingLoop s (l :: rest) = s.race) ∧
    (∀ (race : RaceResult) (lines : List String) (start : Nat),
      (extract_betting_results race lines start).racers = race.racers) :=
  ⟨bettingStep_blank, bettingStep_invalidated, bettingLoop_stop,
    extract_betting_results_racers⟩

/-- Witness for C7: a pure invalidation line stops the scan, and a blank
line stops it once the in-betting flag is set. -/
theorem C7_amended_stop_conditions_witness :
    bettingStep "レース不成立" "" "" false { race := dRace } = none ∧
    bettingStep "" "" "" false betDemoStateFukusho = none :=
  ⟨C7_amended_stop_conditions.2.1 "レース不成立" "" "" false { race := dRace }
      (by decide) (by decide),
    C7_amended_stop_conditions.1 "" "" "" false betDemoStateFukusho (by decide) (by decide)⟩

/-- C8 counterexample: a continuation pair after an exacta line is
appended nowhere — the most recent category's value (`santan`) keeps its
value and no other betting field receives the pair, contradicting the
claim that a continuation line extends the most-recently-seen category. -/
theorem C8_counterexample :
    (extract_betting_results dRace betContinuationAfterExacta 0).santan = some "1-2,500," ∧
    (extract_betting_results dRace betContinuationAfterExacta 0).fukusho = none ∧
    extract_betting_results dRace betContinuationAfterExacta 0 =
      { dRace with santan := some "1-2,500," } := by
  refine ⟨by decide, by decide, by decide⟩

/-- C8 (amended): inside the betting section a keyword-free line is
routed to the continuation handler; the handler appends the leading
boat-number/payout pair to the place (`fukusho`) value only when the
most-recently-seen category is the place category, and leaves the race
unchanged after any other category. -/
theorem C8_amended_continuation :
    (∀ (l1 l2 l3 : String) (b : Bool) (s : BetState),
      s.inBetting = true →
      (∀ kw ∈ betKeywords, pyContains (pyRstrip l1) kw = false) →
      pyRstrip l1 ≠ "" →
      bettingStep l1 l2 l3 b s = some (betContinuation s (pyRstrip l1))) ∧
    (∀ (s : BetState) (line : String),
      2 ≤ (pySplit line).length →
      pyIsdigit ((pySplit line).getD 0 "") = true →
      s.lastBet = "fukusho" →
      betContinuation s line =
        { s with race := { s.race with fukusho := some (fukushoAppend s.race.fukusho
            ((pySplit line).getD 0 "") ((pySplit line).getD 1 "")) } }) ∧
    (∀ (s : BetState) (line : String),
      s.lastBet ≠ "fukusho" → (betContinuation s line).race = s.race) := by
  refine ⟨?_, ?_, ?_⟩
  · intro l1 l2 l3 b s hin hkw hne
    have k1 := hkw "単勝" (by decide)
    have k2 := hkw "複勝" (by decide)
    have k3 := hkw "２連単" (by decide)
    have k4 := hkw "2連単" (by decide)
    have k5 := hkw "２連複" (by decide)
    have k6 := hkw "2連複" (by decide)
    have k7 := hkw "拡連複" (by decide)
    have k8 := hkw "３連単" (by decide)
    have k9 := hkw "3連単" (by decide)
    have k10 := hkw "３連複" (by decide)
    have k11 := hkw "3連複" (by decide)
    have k12 := hkw "不成立" (by decide)
    have hany : (betKeywords.any fun k => pyContains (pyRstrip l1) k) = false := by
      simp [betKeywords, k1, k2, k3, k4, k5, k6, k7, k8, k9, k10, k11, k12]
    unfold bettingStep
    simp [hne, hin, hany, k1, k2, k3, k4, k5, k6, k7, k8, k9, k10, k11, k12]
  · intro s line h2 hd hf
    unfold betContinuation
    dsimp only
    split
    · rfl
    · rename_i hcond
      simp only [Bool.and_eq_true, decide_eq_true_eq, ge_iff_le,
        ← List.getD_eq_getElem?_getD] at hcond
      exact absurd ⟨h2, hd⟩ hcond
  · intro s line hf
    unfold betContinuation
    dsimp only
    repeat' split
    all_goals rfl

/-- Witness for C8: a continuation pair after a place line extends the
place value. -/
theorem C8_amended_continuation_witness :
    betContinuation betDemoStateFukusho " 2  110" =
      { betDemoStateFukusho with race :=
        { betDemoStateFukusho.race with fukusho := some (fukushoAppend
            betDemoStateFukusho.race.fukusho
            ((pySplit " 2  110").getD 0 "") ((pySplit " 2  110").getD 1 "")) } } :=
  C8_amended_continuation.2.1 betDemoStateFukusho " 2  110" (by decide) (by decide) (by decide)

set_option maxHeartbeats 2000000 in
/-- Any entrant produced by the line decoder carries a finishing position
between 1 and 6 (the decoder's final range gate). -/
theorem parse_racer_result_line_range (line : String) (rc : RacerResult)
    (h : parse_racer_result_line line = some rc) : 1 ≤ rc.result ∧ rc.result ≤ 6 := by
  unfold parse_racer_result_line at h
  dsimp only at h
  repeat' split at h
  all_goals first
  | (cases h; dsimp only; omega)
  | simp at h

/-- The invariant carried through the K-file scan: all completed races
and the in-progress race contain only entrants with positions 1-6. -/
def KInv (st : KState) : Prop :=
  (∀ r ∈ st.races, racersOK r) ∧ (∀ r, st.current = some r → racersOK r)

/-- Starting a new race preserves the range invariant: the finalized race
keeps its entrants and the fresh race has none. -/
theorem kNewRace_inv (lines : List String) (date : String) (st : KState) (i : Nat)
    (line : String) (h : KInv st) : KInv (kNewRace lines date st i line) := by
  unfold kNewRace
  dsimp only
  constructor
  · intro r hr
    dsimp only at hr
    split at hr
    · rename_i r0 heq
      split at hr
      · rcases List.mem_append.mp hr with hl | hl
        · exact h.1 r hl
        · rw [List.mem_singleton] at hl
          subst hl
          intro rc hrc
          rw [extract_betting_results_racers] at hrc
          exact h.2 r0 heq rc hrc
      · exact h.1 r hr
    · exact h.1 r hr
  · intro r hr
    dsimp only at hr
    rw [Option.some_inj] at hr
    subst hr
    intro rc hrc
    split at hrc
    · rw [extractRaceDetails_racers] at hrc
      simp at hrc
    · simp at hrc

/-- Appending a decoded racer preserves the range invariant. -/
theorem kTryRacer_inv (st : KState) (r : RaceResult) (line : String) (i : Nat)
    (hr : racersOK r) (h : KInv st) : KInv (kTryRacer st r line i) := by
  unfold kTryRacer
  split
  · split
    · rename_i racer hracer
      split
      · constructor
        · exact h.1
        · intro r' hr'
          rw [Option.some_inj] at hr'
          subst hr'
          intro rc hrc
          dsimp only at hrc
          rcases List.mem_append.mp hrc with hl | hl
          · exact hr rc hl
          · rw [List.mem_singleton] at hl
            subst hl
            exact parse_racer_result_line_range line rc hracer
      · exact h
    · exact h
  · exact h

/-- A scan step preserves the range invariant. -/
theorem kStep_inv (lines : List String) (vh : List Nat) (date : String) (st : KState)
    (i : Nat) (l : String) (h : KInv st) : KInv (kStep lines vh date st i l) := by
  unfold kStep
  by_cases he : pyRstrip l = ""
  · rw [if_pos he]; exact h
  · rw [if_neg he]
    set st1 := if pyContains (pyRstrip l) "競走成績" then kHeaderInfoUpdate lines i st
      else st with hst1
    have h1 : KInv st1 := by
      rw [hst1]
      split
      · exact ⟨fun r hr => h.1 r ((kHeaderInfoUpdate_fields lines i st).2.1 ▸ hr),
          fun r hr => h.2 r ((kHeaderInfoUpdate_fields lines i st).1 ▸ hr)⟩
      · exact h
    split
    · exact kNewRace_inv lines date st1 i (pyRstrip l) h1
    · split
      · exact ⟨h1.1, h1.2⟩
      · dsimp only
        split
        · rename_i r0 heq
          split
          · refine ⟨h1.1, ?_⟩
            intro r hr
            rw [Option.some_inj] at hr
            subst hr
            intro rc hrc
            rw [extractRaceDetails_racers] at hrc
            exact h1.2 r0 heq rc hrc
          · split
            · exact kTryRacer_inv st1 r0 (pyRstrip l) i (h1.2 r0 heq) h1
            · exact h1
        · exact h1

/-- Every race returned by `parse_result_file` satisfies the range
invariant. -/
theorem parse_result_file_racersOK (content date : String) (r : RaceResult)
    (h : r ∈ parse_result_file content date) : racersOK r := by
  unfold parse_result_file at h
  by_cases hl : (pySplitOnChar (pyStrip content) '\n').isEmpty
  · rw [if_pos hl] at h
    simp at h
  · rw [if_neg hl] at h
    have inv := listFoldlPreserve
      (fun st p => kStep (pySplitOnChar (pyStrip content) '\n')
        (validRaceHeaders (pySplitOnChar (pyStrip content) '\n')) date st p.1 p.2)
      KInv
      (fun st p hp => kStep_inv _ _ date st p.1 p.2 hp)
      (pySplitOnChar (pyStrip content) '\n').enum {}
      ⟨by intro r hr; simp at hr, by intro r hr; simp at hr⟩
    revert h
    unfold kFinish
    dsimp only
    split
    · rename_i r0 heq
      split
      · intro h
        rcases List.mem_append.mp h with hl' | hl'
        · exact inv.1 r hl'
        · rw [List.mem_singleton] at hl'
          subst hl'
          intro rc hrc
          rw [extract_betting_results_racers] at hrc
          exact inv.2 r0 heq rc hrc
      · intro h; exact inv.1 r h
    · intro h; exact inv.1 r h

/-- C3: in every parsed race with exactly six entrants whose decoded
finishing positions are pairwise distinct (a well-formed bulletin), the
positions cover 1..6 exactly once. -/
theorem C3_positions_cover_1_to_6 :
    ∀ (content date : String) (r : RaceResult),
      r ∈ parse_result_file content date →
      r.racers.length = 6 →
      (r.racers.map RacerResult.result).Nodup →
      (r.racers.map RacerResult.result).toFinset = Finset.Icc (1 : ℤ) 6 := by
  intro content date r hmem hlen hnodup
  have hok : racersOK r := parse_result_file_racersOK content date r hmem
  have hsub : (r.racers.map RacerResult.result).toFinset ⊆ Finset.Icc (1 : ℤ) 6 := by
    intro x hx
    rw [List.mem_toFinset, List.mem_map] at hx
    obtain ⟨rc, hrc, rfl⟩ := hx
    rw [Finset.mem_Icc]
    exact hok rc hrc
  have hcard : (r.racers.map RacerResult.result).toFinset.card = 6 := by
    rw [List.toFinset_card_of_nodup hnodup, List.length_map, hlen]
  have hicc : (Finset.Icc (1 : ℤ) 6).card = 6 := by
    rw [Int.card_Icc]
    rfl
  exact Finset.eq_of_subset_of_card_le hsub (by rw [hcard, hicc])

/-- Witness for C3: the six-entrant race of the demo bulletin covers the
positions 1..6. -/
theorem C3_positions_cover_1_to_6_witness :
    ((parse_result_file kDemoContent "").getD 0 dRace).racers.length = 6 ∧
    ((((parse_result_file kDemoContent "").getD 0 dRace).racers.map
      RacerResult.result).toFinset = Finset.Icc (1 : ℤ) 6) :=
  ⟨by decide, C3_positions_cover_1_to_6 kDemoContent ""
    ((parse_result_file kDemoContent "").getD 0 dRace)
    (by decide) (by decide) (by decide)⟩

/-- C1 counterexample: a program bulletin whose single race block has
decoded exactly one frame when end of input is reached yields an empty
output — the in-progress program with one decoded frame is not appended,
contradicting the claim for `RaceProgram` parsing. -/
theorem C1_counterexample :
    ((progLoop progDemoLines "2025-12-09" progDemoLines.length 0 {}).current.map
      (fun p => p.racer_frames.length)) = some 1 ∧
    parse_program_file progDemoContent "2025-12-09" = [] :=
  ⟨by decide, by decide⟩

/-- C1 (amended): on a confirmed header or at end of input, an
in-progress `RaceResult` with at least one decoded entrant is finalized
(betting extracted over the lines after the last entrant) and appended,
including incomplete races with fewer than six entrants; for
`RaceProgram` parsing, the in-progress program is appended — on a new
race-detail header or at end of input — only when it holds exactly six
frames, and programs with one to five frames are discarded. -/
theorem C1_amended_finalization :
    (∀ (lines : List String) (vh : List Nat) (date : String) (st : KState) (i : Nat)
        (line : String) (r : RaceResult),
      vh.contains i = true → pyRstrip line ≠ "" → st.current = some r →
      r.racers.length > 0 →
      (kStep lines vh date st i line).races =
        st.races ++ [extract_betting_results r lines (st.lastRacerIdx - 1)]) ∧
    (∀ (lines : List String) (st : KState) (r : RaceResult),
      st.current = some r → r.racers.length > 0 →
      kFinish lines st =
        st.races ++ [extract_betting_results r lines (st.lastRacerIdx - 1)]) ∧
    (∀ (p : RaceProgram) (programs : List RaceProgram),
      p.racer_frames.length = 6 → progSave (some p) programs = programs ++ [p]) ∧
    (∀ (p : RaceProgram) (programs : List RaceProgram),
      p.racer_frames.length ≠ 6 → progSave (some p) programs = programs) := by
  refine ⟨?_, ?_, ?_, ?_⟩
  · intro lines vh date st i line r hvh hne hcur hlen
    unfold kStep
    rw [if_neg hne]
    set st1 := if pyContains (pyRstrip line) "競走成績" then kHeaderInfoUpdate lines i st
      else st with hst1
    have hfield : st1.current = st.current ∧ st1.races = st.races ∧
        st1.lastRacerIdx = st.lastRacerIdx := by
      rw [hst1]
      split
      · exact ⟨(kHeaderInfoUpdate_fields lines i st).1,
          (kHeaderInfoUpdate_fields lines i st).2.1,
          (kHeaderInfoUpdate_fields lines i st).2.2.1⟩
      · exact ⟨rfl, rfl, rfl⟩
    simp only [hvh, if_true]
    unfold kNewRace
    dsimp only
    rw [hfield.1, hcur]
    dsimp only
    rw [if_pos hlen, hfield.2.1, hfield.2.2]
  · intro lines st r hcur hlen
    unfold kFinish
    rw [hcur]
    dsimp only
    rw [if_pos hlen]
  · intro p programs h
    unfold progSave
    dsimp only
    rw [if_pos h]
  · intro p programs h
    unfold progSave
    dsimp only
    rw [if_neg h]

/-- Witness for C1: finalizing a one-entrant race at end of input appends
it, betting-extracted, to the output. -/
theorem C1_amended_finalization_witness :
    kFinish [] kDemoState =
      kDemoState.races ++ [extract_betting_results r1Demo [] (kDemoState.lastRacerIdx - 1)] :=
  C1_amended_finalization.2.1 [] kDemoState r1Demo rfl (by decide)
